import Mathlib

/-!
# go-sqlbuilder: INSERT / UPDATE statement builders and literals

A shallow embedding of `insert.go`, `update.go` and `literal.go`.

* Go `interface{}` values are embedded as the inductive `Raw` (dynamic type + value).
* A Go interface that may be nil (`Table`, `Condition`, `error`) is an `Option`.
* The process-wide `dialect()` and the column-type tables, which the three files consult
  but do not define, are passed explicitly as an `Env`.
* `ToSql` mutates its receiver (Insert's column default): the embedding returns the
  builder after the call together with the `(query, args, err)` triple.
-/

namespace Sqlbuilder

/-! ## Go values held in an `interface{}` -/

/-- The `reflect.Kind` enumeration of the Go standard library. -/
inductive Kind where
  | Invalid | Bool
  | Int | Int8 | Int16 | Int32 | Int64
  | Uint | Uint8 | Uint16 | Uint32 | Uint64 | Uintptr
  | Float32 | Float64 | Complex64 | Complex128
  | Array | Chan | Func | Interface | Map | Ptr | Slice | String | Struct | UnsafePointer
  deriving DecidableEq, Repr

/-- An IEEE floating point value, kept exactly: NaN, an infinity, or `± mant * 2 ^ exp`. -/
inductive GoFloat where
  | nan
  | inf (neg : Bool)
  | finite (neg : Bool) (mant : Nat) (exp : Int)
  deriving DecidableEq, Repr

/-- A `time.Time`: an instant (seconds and nanoseconds since the Unix epoch) together with the
offset, in seconds east of UTC, that its own location has at that instant. -/
structure Time where
  unix : Int
  nsec : Nat
  offset : Int
  deriving DecidableEq, Repr

/-- The dynamic content of a Go `interface{}`.  The constructors up to `time` are the dynamic
types that `literalImpl.string` switches on (a Go string and a byte slice are both byte
sequences, `String` stands for either, and `bytes none` is the nil slice); `other` is a value
of any other dynamic type,
described by what the code can observe of it: its type name (`%T`), its `reflect.Kind`, whether
the value is nil (meaningful for the kinds that can be nil) and, when the type implements
`fmt.Stringer`, the text its `String()` method returns. -/
inductive Raw where
  | nil
  | int (v : Int) | int8 (v : Int) | int16 (v : Int) | int32 (v : Int) | int64 (v : Int)
  | uint (v : Nat) | uint8 (v : Nat) | uint16 (v : Nat) | uint32 (v : Nat) | uint64 (v : Nat)
  | float32 (f : GoFloat) | float64 (f : GoFloat)
  | bool (b : Bool)
  | string (s : String)
  | bytes (b : Option String)
  | time (t : Time)
  | other (typeName : String) (kind : Kind) (isNil : Bool) (stringer : Option String)
  deriving DecidableEq, Repr

/-- The kind `reflect.ValueOf(raw).Kind()`; `Invalid` for the nil interface. -/
def Raw.kind : Raw → Kind
  | .nil => Kind.Invalid
  | .int _ => Kind.Int | .int8 _ => Kind.Int8 | .int16 _ => Kind.Int16
  | .int32 _ => Kind.Int32 | .int64 _ => Kind.Int64
  | .uint _ => Kind.Uint | .uint8 _ => Kind.Uint8 | .uint16 _ => Kind.Uint16
  | .uint32 _ => Kind.Uint32 | .uint64 _ => Kind.Uint64
  | .float32 _ => Kind.Float32 | .float64 _ => Kind.Float64
  | .bool _ => Kind.Bool
  | .string _ => Kind.String
  | .bytes _ => Kind.Slice
  | .time _ => Kind.Struct
  | .other _ k _ _ => k

/-- The result of `reflect.ValueOf(raw).IsNil()` on a value of a kind that can be nil
(the Go call panics on the other kinds; `literalImpl.IsNil` never makes it there). -/
def Raw.valueIsNil : Raw → Bool
  | .bytes none => true
  | .other _ _ isNil _ => isNil
  | _ => false

/-- The text that the `%T` verb of `fmt` prints for the value. -/
def Raw.typeName : Raw → String
  | .nil => "<nil>"
  | .int _ => "int" | .int8 _ => "int8" | .int16 _ => "int16"
  | .int32 _ => "int32" | .int64 _ => "int64"
  | .uint _ => "uint" | .uint8 _ => "uint8" | .uint16 _ => "uint16"
  | .uint32 _ => "uint32" | .uint64 _ => "uint64"
  | .float32 _ => "float32" | .float64 _ => "float64"
  | .bool _ => "bool"
  | .string _ => "string"
  | .bytes _ => "[]uint8"
  | .time _ => "time.Time"
  | .other n _ _ _ => n

/-! ## Standard-library formatting used by `literalImpl.string` -/

/-- The decimal digits of `n`, padded on the left with zeros to at least `width` characters. -/
def zeroPad (width n : Nat) : String :=
  String.mk (List.replicate (width - (Nat.repr n).length) '0') ++ Nat.repr n

/-- `strconv.FormatInt(v, 10)`. -/
def FormatInt (v : Int) : String :=
  if v < 0 then "-" ++ Nat.repr v.natAbs else Nat.repr v.natAbs

/-- `strconv.FormatUint(v, 10)`. -/
def FormatUint (v : Nat) : String := Nat.repr v

/-- `strconv.FormatBool`. -/
def FormatBool (b : Bool) : String := if b then "true" else "false"

/-- The value `mant * 2 ^ exp * 10 ^ 10` rounded to the nearest integer, ties to even. -/
def scaledRound (mant : Nat) (exp : Int) : Nat :=
  let num := mant * 10 ^ 10 * 2 ^ exp.toNat
  let den := 2 ^ (-exp).toNat
  let q := num / den
  let r := num % den
  if 2 * r > den ∨ (2 * r = den ∧ q % 2 = 1) then q + 1 else q

/-- `strconv.FormatFloat(f, 'f', 10, bitSize)`: fixed point with exactly 10 fractional digits,
the exact value being rounded to nearest, ties to even. -/
def FormatFloat (f : GoFloat) : String :=
  match f with
  | .nan => "NaN"
  | .inf false => "+Inf"
  | .inf true => "-Inf"
  | .finite neg mant exp =>
    let q := scaledRound mant exp
    (if neg then "-" else "") ++ Nat.repr (q / 10 ^ 10) ++ "." ++ zeroPad 10 (q % 10 ^ 10)

/-- The proleptic Gregorian civil date `(year, month, day)` of the day that lies `days` days
after 1970-01-01. -/
def civilFromDays (days : Int) : Int × Nat × Nat :=
  let z := days + 719468
  let era := z / 146097
  let doe := (z - era * 146097).toNat
  let yoe := (doe - doe / 1460 + doe / 36524 - doe / 146096) / 365
  let doy := doe - (365 * yoe + yoe / 4 - yoe / 100)
  let mp := (5 * doy + 2) / 153
  let d := doy - (153 * mp + 2) / 5 + 1
  let m := if mp < 10 then mp + 3 else mp - 9
  let y := (yoe : Int) + era * 400 + (if m ≤ 2 then 1 else 0)
  (y, m, d)

/-- The year as `time.Format` prints it for the layout element `2006`: at least four digits,
with a leading minus sign for a negative year. -/
def formatYear (y : Int) : String :=
  if y < 0 then "-" ++ zeroPad 4 y.natAbs else zeroPad 4 y.natAbs

/-- `t.Format("2006-01-02 15:04:05")`: the wall clock of the instant in the value's own zone. -/
def Time.Format (t : Time) : String :=
  let wall := t.unix + t.offset
  let days := wall / 86400
  let secs := (wall % 86400).toNat
  let (y, m, d) := civilFromDays days
  formatYear y ++ "-" ++ zeroPad 2 m ++ "-" ++ zeroPad 2 d ++ " " ++
    zeroPad 2 (secs / 3600) ++ ":" ++ zeroPad 2 (secs % 3600 / 60) ++ ":" ++ zeroPad 2 (secs % 60)

/-! ## literal.go -/

/-- The struct `literalImpl`: a raw value and the flag that says whether it is emitted as a
placeholder (bound) or as inline text. -/
structure literalImpl where
  raw : Raw
  placeholder : Bool
  deriving DecidableEq, Repr

/-- The function `toLiteral`: a bound literal. -/
def toLiteral (v : Raw) : literalImpl :=
  { raw := v, placeholder := true }

/-- The method `literalImpl.IsNil`. -/
def literalImpl.IsNil (l : literalImpl) : Bool :=
  if l.raw = Raw.nil then true
  else
    match l.raw.kind with
    | Kind.Chan | Kind.Func | Kind.Interface | Kind.Map | Kind.Ptr | Kind.Slice =>
      l.raw.valueIsNil
    | _ => false

/-- The method `literalImpl.string`: the type switch on the raw value, case by case in the
order of the source (`time.Time` is met before `fmt.Stringer`). -/
def literalImpl.string (l : literalImpl) : String :=
  match l.raw with
  | .int t => FormatInt t
  | .int8 t => FormatInt t
  | .int16 t => FormatInt t
  | .int32 t => FormatInt t
  | .int64 t => FormatInt t
  | .uint t => FormatUint t
  | .uint8 t => FormatUint t
  | .uint16 t => FormatUint t
  | .uint32 t => FormatUint t
  | .uint64 t => FormatUint t
  | .float32 t => FormatFloat t
  | .float64 t => FormatFloat t
  | .bool t => FormatBool t
  | .string t => t
  | .bytes t => t.getD ""
  | .time t => t.Format
  | .other _ _ _ (some s) => s
  | .nil => "NULL"
  | .other _ _ _ none => ""

/-- The method `literalImpl.Raw`. -/
def literalImpl.Raw (l : literalImpl) : Sqlbuilder.Raw := l.raw

/-! ## What the three files use and do not define -/

/-- The closed set of column type tags (`ColumnTypeInt` ... `ColumnTypeBytes`). -/
inductive ColumnType where
  | ColumnTypeInt | ColumnTypeString | ColumnTypeDate
  | ColumnTypeFloat | ColumnTypeBool | ColumnTypeBytes
  deriving DecidableEq, Repr

/-- Modelled from the spec: the `Column` metadata (the declaration is absent from the source
files): a name (`column_name()`) and a type tag (`config().Type()`). -/
structure Column where
  name : String
  typ : ColumnType
  deriving DecidableEq, Repr

/-- Modelled from the spec: the `Table` metadata (the declaration is absent from the source
files): a name and the ordered column list, insertion order being declaration order. -/
structure Table where
  name : String
  columns : List Column
  deriving DecidableEq, Repr

/-- Modelled from the spec: `Table.Columns()` returns the full ordered column list. -/
def Table.Columns (t : Table) : List Column := t.columns

/-- The `Dialect` capability set, as far as the statement builders use it: the placeholder of
the i-th bound argument (1-indexed) and the quoting of an identifier.  `QuoteField` is only
ever applied to a column or table name by the code embedded here. -/
structure Dialect where
  QuerySuffix : String
  BindVar : Nat → String
  QuoteField : String → String

/-- The `TestDialect` of `sqlbuilder_test.go` (`QuoteField` on its `string` case). -/
def TestDialect : Dialect where
  QuerySuffix := ";"
  BindVar := fun _ => "?"
  QuoteField := fun str => "\"" ++ str ++ "\""

/-- The environment of a serialization: the active dialect (the global `dialect()`), and the
two tables on column types whose declarations are absent from the source files: the set of Go
types (by type name) that a column type accepts, and `ColumnType.String()`. -/
structure Env where
  dialect : Dialect
  capable : ColumnType → String → Bool
  typeString : ColumnType → String

/-- A Go `error` value, identified by the text of `Error()`. -/
structure Error where
  msg : String
  deriving DecidableEq, Repr

/-- Modelled from the spec: `newError` (absent from the source files); `TestError` in
`sqlbuilder_test.go` fixes the prefix.  The argument is the formatted text. -/
def newError (text : String) : Error :=
  { msg := "sqlbuilder: " ++ text }

/-- Modelled from the spec: `Column.acceptType` (absent from the source files): a nil literal
is always accepted, any other literal is accepted exactly when the type of its raw value is
in the accepted set of the column type. -/
def Column.acceptType (e : Env) (c : Column) (l : literalImpl) : Bool :=
  l.IsNil || e.capable c.typ l.raw.typeName

/-- The text of the type-mismatch error, `"%s column not accept %T"` applied to the column
type name and the raw value. -/
def notAcceptError (e : Env) (c : Column) (l : literalImpl) : Error :=
  newError (e.typeString c.typ ++ " column not accept " ++ l.Raw.typeName)

/-! ## The builder accumulator -/

/-- Modelled from the spec: the builder accumulator (absent from the source files): the text
buffer, the ordered argument sequence and the sticky first error. -/
structure builder where
  query : String
  args : List Raw
  err : Option Error
  deriving DecidableEq, Repr

/-- Modelled from the spec: `newBuilder`, a fresh accumulator. -/
def newBuilder : builder :=
  { query := "", args := [], err := none }

/-- Modelled from the spec: `Append` appends a text fragment. -/
def builder.Append (b : builder) (fragment : String) : builder :=
  { b with query := b.query ++ fragment }

/-- Modelled from the spec: `AppendValue` registers a bound argument and emits the placeholder
of its (1-indexed) position. -/
def builder.AppendValue (e : Env) (b : builder) (val : Raw) : builder :=
  { b with query := b.query ++ e.dialect.BindVar (b.args.length + 1), args := b.args ++ [val] }

/-- Modelled from the spec: `SetError` records an error only if none is already recorded. -/
def builder.SetError (b : builder) (err : Error) : builder :=
  match b.err with
  | some _ => b
  | none => { b with err := some err }

/-- Modelled from the spec: `AppendItem` delegates to the item's own `serialize`. -/
def builder.AppendItem (b : builder) (serialize : builder → builder) : builder :=
  serialize b

/-- The loop of `AppendItems`: the separator goes before every item but the first. -/
def appendItemsLoop {α : Type} (serialize : α → builder → builder) (sep : String) :
    Bool → List α → builder → builder
  | _, [], b => b
  | first, p :: ps, b =>
    appendItemsLoop serialize sep false ps (serialize p (if first then b else b.Append sep))

/-- Modelled from the spec: `AppendItems` joins many items with a separator. -/
def builder.AppendItems {α : Type} (b : builder) (serialize : α → builder → builder)
    (parts : List α) (sep : String) : builder :=
  appendItemsLoop serialize sep true parts b

/-- Modelled from the spec: the accessor `Query`. -/
def builder.Query (b : builder) : String := b.query

/-- Modelled from the spec: the accessor `Args`. -/
def builder.Args (b : builder) : List Raw := b.args

/-- Modelled from the spec: the accessor `Err`. -/
def builder.Err (b : builder) : Option Error := b.err

/-! ## Serializable items -/

/-- The method `literalImpl.serialize`. -/
def literalImpl.serialize (e : Env) (l : literalImpl) (bldr : builder) : builder :=
  if l.placeholder then bldr.AppendValue e l.raw else bldr.Append l.string

/-- Modelled from the spec: `Column.serialize` (absent from the source files) emits the column
identifier, quoted by the dialect. -/
def Column.serialize (e : Env) (c : Column) (bldr : builder) : builder :=
  bldr.Append (e.dialect.QuoteField c.name)

/-- Modelled from the spec: `ColumnList.serialize` (absent from the source files) emits the
columns in order, joined by a comma. -/
def ColumnList.serialize (e : Env) (cs : List Column) (bldr : builder) : builder :=
  bldr.AppendItems (Column.serialize e) cs ", "

/-- Modelled from the spec: `Table.serialize` (absent from the source files) emits the table
identifier, quoted by the dialect. -/
def Table.serialize (e : Env) (t : Table) (bldr : builder) : builder :=
  bldr.Append (e.dialect.QuoteField t.name)

/-- Modelled from the spec: a `Condition` (the declaration is absent from the source files): a
comparison of a column with a literal, or two conditions joined by a boolean combinator.  The
spec does not fix the spelling of operators and combinators: a node carries the text it
emits. -/
inductive Condition where
  | compare (left : Column) (operator : String) (right : literalImpl)
  | connect (left : Condition) (connective : String) (right : Condition)
  deriving DecidableEq, Repr

/-- Modelled from the spec: `Condition.serialize`, through the same protocol as every other
clause fragment; nothing is evaluated. -/
def Condition.serialize (e : Env) : Condition → builder → builder
  | .compare left operator right, bldr =>
    ((bldr.AppendItem (left.serialize e)).Append operator).AppendItem (right.serialize e)
  | .connect left connective right, bldr =>
    ((bldr.AppendItem (left.serialize e)).Append connective).AppendItem (right.serialize e)

/-- Modelled from the spec: an ordering item as `newOrderBy` makes it (absent from the source
files): a column and its direction. -/
structure orderBy where
  desc : Bool
  column : Column
  deriving DecidableEq, Repr

/-- Modelled from the spec: `newOrderBy`. -/
def newOrderBy (desc : Bool) (column : Column) : orderBy :=
  { desc := desc, column := column }

/-- Modelled from the spec: `orderBy.serialize` emits the column and then its direction. -/
def orderBy.serialize (e : Env) (m : orderBy) (bldr : builder) : builder :=
  (bldr.AppendItem (m.column.serialize e)).Append (if m.desc then " DESC" else " ASC")

/-- The triple `(query, args, err)` that `ToSql` returns. -/
structure Result where
  query : String
  args : List Raw
  err : Option Error
  deriving DecidableEq, Repr

/-- The deferred assignment in `ToSql`: the triple is read off the accumulator. -/
def builder.result (bldr : builder) : Result :=
  { query := bldr.Query, args := bldr.Args, err := bldr.Err }

/-! ## insert.go -/

/-- The struct `InsertStatement`; `into` is `none` for a nil `Table`. -/
structure InsertStatement where
  columns : List Column
  values : List literalImpl
  into : Option Table
  deriving DecidableEq, Repr

/-- The function `Insert`. -/
def Insert (into : Option Table) : InsertStatement :=
  { into := into, columns := [], values := [] }

/-- The method `InsertStatement.Columns`. -/
def InsertStatement.Columns (b : InsertStatement) (columns : List Column) : InsertStatement :=
  { b with columns := columns }

/-- The method `InsertStatement.Values`. -/
def InsertStatement.Values (b : InsertStatement) (values : List Raw) : InsertStatement :=
  { b with values := values.map toLiteral }

/-- The method `InsertStatement.Set`. -/
def InsertStatement.Set (b : InsertStatement) (column : Column) (value : Raw) :
    InsertStatement :=
  { b with columns := b.columns ++ [column], values := b.values ++ [toLiteral value] }

/-- The loop `for i := range b.columns` of `InsertStatement.ToSql`, run on lists of equal
length: the error of the first column that does not accept its paired value, if any. -/
def InsertStatement.checkTypes (e : Env) : List Column → List literalImpl → Option Error
  | c :: cs, v :: vs =>
    if !c.acceptType e v then some (notAcceptError e c v)
    else InsertStatement.checkTypes e cs vs
  | _, _ => none

/-- The method `InsertStatement.ToSql`: the builder after the call, and the returned triple. -/
def InsertStatement.ToSql (e : Env) (b : InsertStatement) : InsertStatement × Result :=
  let bldr := newBuilder
  -- INSERT
  let bldr := bldr.Append "INSERT"
  -- INTO Table
  let bldr := bldr.Append " INTO "
  match b.into with
  | none => (b, (bldr.SetError (newError "into is nil")).result)
  | some into =>
    let bldr := bldr.AppendItem (into.serialize e)
    -- (COLUMN)
    let b := if b.columns.length = 0 then { b with columns := into.Columns } else b
    let bldr := bldr.Append " ( "
    let bldr := bldr.AppendItem (ColumnList.serialize e b.columns)
    let bldr := bldr.Append " )"
    -- VALUES
    if b.columns.length ≠ b.values.length then
      (b, (bldr.SetError (newError (Nat.repr b.columns.length ++ " values needed, but got " ++
        Nat.repr b.values.length))).result)
    else
      match InsertStatement.checkTypes e b.columns b.values with
      | some err => (b, (bldr.SetError err).result)
      | none =>
        let bldr := bldr.Append " VALUES ( "
        let bldr := bldr.AppendItems (literalImpl.serialize e) b.values ", "
        let bldr := bldr.Append " )"
        (b, bldr.result)

/-! ## update.go -/

/-- The struct `updateValue`. -/
structure updateValue where
  col : Column
  val : literalImpl
  deriving DecidableEq, Repr

/-- The function `newUpdateValue`. -/
def newUpdateValue (col : Column) (val : Raw) : updateValue :=
  { col := col, val := toLiteral val }

/-- The method `updateValue.serialize`. -/
def updateValue.serialize (e : Env) (m : updateValue) (bldr : builder) : builder :=
  if !m.col.acceptType e m.val then
    bldr.SetError (notAcceptError e m.col m.val)
  else
    let bldr := bldr.Append (e.dialect.QuoteField m.col.name)
    let bldr := bldr.Append "="
    bldr.AppendItem (m.val.serialize e)

/-- The struct `UpdateStatement`.  The slices `set` and `orderBy` only ever receive the items
that `Set` and `OrderBy` make; `orderBy` is `none` for the nil slice; `limit` and `offset` are
Go `int` values, which are only compared with zero and bound as arguments. -/
structure UpdateStatement where
  table : Option Table
  set : List updateValue
  where_ : Option Condition
  orderBy : Option (List orderBy)
  limit : Int
  offset : Int
  deriving DecidableEq, Repr

/-- The function `Update`. -/
def Update (table : Option Table) : UpdateStatement :=
  { table := table, set := [], where_ := none, orderBy := none, limit := 0, offset := 0 }

/-- The method `UpdateStatement.Set`. -/
def UpdateStatement.Set (b : UpdateStatement) (col : Column) (val : Raw) : UpdateStatement :=
  { b with set := b.set ++ [newUpdateValue col val] }

/-- The method `UpdateStatement.Where`. -/
def UpdateStatement.Where (b : UpdateStatement) (cond : Option Condition) : UpdateStatement :=
  { b with where_ := cond }

/-- The method `UpdateStatement.Limit`. -/
def UpdateStatement.Limit (b : UpdateStatement) (limit : Int) : UpdateStatement :=
  { b with limit := limit }

/-- The method `UpdateStatement.Offset`. -/
def UpdateStatement.Offset (b : UpdateStatement) (offset : Int) : UpdateStatement :=
  { b with offset := offset }

/-- The method `UpdateStatement.OrderBy`. -/
def UpdateStatement.OrderBy (b : UpdateStatement) (desc : Bool) (columns : List Column) :
    UpdateStatement :=
  let b := if b.orderBy = none then { b with orderBy := some [] } else b
  columns.foldl (fun b c => { b with orderBy := some (b.orderBy.getD [] ++ [newOrderBy desc c]) }) b

/-- The method `UpdateStatement.ToSql`: the builder after the call, and the returned triple. -/
def UpdateStatement.ToSql (e : Env) (b : UpdateStatement) : UpdateStatement × Result :=
  let bldr := newBuilder
  -- UPDATE TABLE SET (COLUMN=VALUE)
  let bldr := bldr.Append "UPDATE "
  let bldr :=
    match b.table with
    | some table => bldr.AppendItem (table.serialize e)
    | none => bldr.SetError (newError "table is nil")
  let bldr := bldr.Append " SET "
  let bldr :=
    if b.set.length ≠ 0 then bldr.AppendItems (updateValue.serialize e) b.set ", "
    else bldr.SetError (newError "length of sets is 0")
  -- WHERE
  let bldr :=
    match b.where_ with
    | some cond => (bldr.Append " WHERE ").AppendItem (cond.serialize e)
    | none => bldr
  -- ORDER BY
  let bldr :=
    match b.orderBy with
    | some items => (bldr.Append " ORDER BY ").AppendItems (orderBy.serialize e) items ", "
    | none => bldr
  -- LIMIT
  let bldr := if b.limit ≠ 0 then (bldr.Append " LIMIT ").AppendValue e (Raw.int b.limit) else bldr
  -- Offset
  let bldr :=
    if b.offset ≠ 0 then (bldr.Append " OFFSET ").AppendValue e (Raw.int b.offset) else bldr
  (b, bldr.result)

/-! ## Specification-side definitions -/

/-- The column list of an Insert as the specification describes it: the explicitly configured
list, or the full column list of the table when none was configured. -/
def InsertStatement.effectiveColumns (b : InsertStatement) (t : Table) : List Column :=
  if b.columns = [] then t.columns else b.columns

/-- The count-mismatch error, `"%d values needed, but got %d"`. -/
def countError (columns values : Nat) : Error :=
  newError (Nat.repr columns ++ " values needed, but got " ++ Nat.repr values)

/-- What `InsertStatement.ToSql` emits once the table `t` is known to be present and the
column list `cs` has been settled. -/
def insertEmit (e : Env) (t : Table) (cs : List Column) (vals : List literalImpl) : Result :=
  let bldr := (((((newBuilder.Append "INSERT").Append " INTO ").AppendItem (t.serialize e)).Append
    " ( ").AppendItem (ColumnList.serialize e cs)).Append " )"
  if cs.length ≠ vals.length then (bldr.SetError (countError cs.length vals.length)).result
  else
    match InsertStatement.checkTypes e cs vals with
    | some err => (bldr.SetError err).result
    | none =>
      (((bldr.Append " VALUES ( ").AppendItems (literalImpl.serialize e) vals ", ").Append
        " )").result

/-! ## The output of a serialization as a sequence of tokens

The specification describes a query as text with placeholder tokens whose left-to-right order
is the order of the arguments.  `Frag` makes the tokens explicit: each serializable item is
given the token sequence it stands for, and the theorems below show that running the item
through the accumulator appends exactly the rendering of that sequence. -/

/-- One token of output: literal text, a placeholder bound to a value, or the recording of an
error (which writes nothing). -/
inductive Frag where
  | text (s : String)
  | bind (v : Raw)
  | fail (err : Error)
  deriving DecidableEq, Repr

/-- The text of a token sequence when `k` arguments are already bound: the i-th placeholder of
the whole output is written `BindVar i`. -/
def renderFrags (d : Dialect) : Nat → List Frag → String
  | _, [] => ""
  | k, .text s :: fs => s ++ renderFrags d k fs
  | k, .bind _ :: fs => d.BindVar (k + 1) ++ renderFrags d (k + 1) fs
  | k, .fail _ :: fs => renderFrags d k fs

/-- The values bound by the placeholders of a token sequence, left to right. -/
def boundValues : List Frag → List Raw
  | [] => []
  | .bind v :: fs => v :: boundValues fs
  | _ :: fs => boundValues fs

/-- The number of placeholders of a token sequence. -/
def placeholderCount : List Frag → Nat
  | [] => 0
  | .bind _ :: fs => placeholderCount fs + 1
  | _ :: fs => placeholderCount fs

/-- The first error recorded by a token sequence. -/
def firstFailure : List Frag → Option Error
  | [] => none
  | .fail err :: _ => some err
  | _ :: fs => firstFailure fs

/-- Running a token sequence through the accumulator. -/
def emit (e : Env) : List Frag → builder → builder
  | [], b => b
  | .text s :: fs, b => emit e fs (b.Append s)
  | .bind v :: fs, b => emit e fs (b.AppendValue e v)
  | .fail err :: fs, b => emit e fs (b.SetError err)

/-- Token sequences, each preceded by the separator. -/
def sepFrags (sep : String) : List (List Frag) → List Frag
  | [] => []
  | x :: xs => Frag.text sep :: (x ++ sepFrags sep xs)

/-- Token sequences joined by the separator. -/
def joinFrags (sep : String) : List (List Frag) → List Frag
  | [] => []
  | x :: xs => x ++ sepFrags sep xs

/-- Texts, each preceded by the separator. -/
def sepText (sep : String) : List String → String
  | [] => ""
  | x :: xs => sep ++ x ++ sepText sep xs

/-- The tokens of a literal: a placeholder when it is bound, its text form otherwise. -/
def literalImpl.frags (l : literalImpl) : List Frag :=
  if l.placeholder then [Frag.bind l.raw] else [Frag.text l.string]

/-- The tokens of a column: its quoted name. -/
def Column.frags (e : Env) (c : Column) : List Frag :=
  [Frag.text (e.dialect.QuoteField c.name)]

/-- The tokens of a table: its quoted name. -/
def Table.frags (e : Env) (t : Table) : List Frag :=
  [Frag.text (e.dialect.QuoteField t.name)]

/-- The tokens of an assignment: `col=placeholder`, or nothing but the type-mismatch error
when the column does not accept the value. -/
def updateValue.frags (e : Env) (m : updateValue) : List Frag :=
  if m.col.acceptType e m.val then
    Frag.text (e.dialect.QuoteField m.col.name) :: Frag.text "=" :: m.val.frags
  else [Frag.fail (notAcceptError e m.col m.val)]

/-- The tokens of a condition. -/
def Condition.frags (e : Env) : Condition → List Frag
  | .compare left operator right => left.frags e ++ Frag.text operator :: right.frags
  | .connect left connective right =>
    Condition.frags e left ++ Frag.text connective :: Condition.frags e right

/-- The tokens of an ordering item. -/
def orderBy.frags (e : Env) (m : orderBy) : List Frag :=
  m.column.frags e ++ [Frag.text (if m.desc then " DESC" else " ASC")]

/-- The statement `UPDATE table SET assignments` as tokens; a nil table and an empty
assignment list stand for their errors. -/
def UpdateStatement.headFrags (e : Env) (b : UpdateStatement) : List Frag :=
  Frag.text "UPDATE " ::
    ((match b.table with
      | some t => t.frags e
      | none => [Frag.fail (newError "table is nil")]) ++
    Frag.text " SET " ::
      (if b.set = [] then [Frag.fail (newError "length of sets is 0")]
       else joinFrags ", " (b.set.map (updateValue.frags e))))

/-- The optional clause `WHERE condition` as tokens. -/
def UpdateStatement.whereFrags (e : Env) (b : UpdateStatement) : List Frag :=
  match b.where_ with
  | some cond => Frag.text " WHERE " :: cond.frags e
  | none => []

/-- The optional clause `ORDER BY items` as tokens. -/
def UpdateStatement.orderFrags (e : Env) (b : UpdateStatement) : List Frag :=
  match b.orderBy with
  | some items => Frag.text " ORDER BY " :: joinFrags ", " (items.map (orderBy.frags e))
  | none => []

/-- The optional clause `LIMIT placeholder` as tokens. -/
def UpdateStatement.limitFrags (b : UpdateStatement) : List Frag :=
  if b.limit = 0 then [] else [Frag.text " LIMIT ", Frag.bind (Raw.int b.limit)]

/-- The optional clause `OFFSET placeholder` as tokens. -/
def UpdateStatement.offsetFrags (b : UpdateStatement) : List Frag :=
  if b.offset = 0 then [] else [Frag.text " OFFSET ", Frag.bind (Raw.int b.offset)]

/-- The fixed emission order of an Update:
`UPDATE table SET assignments [WHERE condition] [ORDER BY items] [LIMIT n] [OFFSET n]`. -/
def UpdateStatement.frags (e : Env) (b : UpdateStatement) : List Frag :=
  b.headFrags e ++ b.whereFrags e ++ b.orderFrags e ++ b.limitFrags ++ b.offsetFrags

/-- The assignments of an Update, joined by a comma, as tokens. -/
def UpdateStatement.setFrags (e : Env) (b : UpdateStatement) : List Frag :=
  joinFrags ", " (b.set.map (updateValue.frags e))

/-- The texts `col=placeholder` of accepted assignments of bound values, the first placeholder
being the one of position `k + 1`. -/
def assignmentTexts (d : Dialect) : Nat → List updateValue → List String
  | _, [] => []
  | k, m :: ms =>
    (d.QuoteField m.col.name ++ "=" ++ d.BindVar (k + 1)) :: assignmentTexts d (k + 1) ms

/-- The arguments that a literal contributes: its raw value when it is bound. -/
def literalImpl.bound (l : literalImpl) : List Sqlbuilder.Raw :=
  if l.placeholder then [l.raw] else []

/-- The arguments that a condition contributes, left to right. -/
def Condition.args : Condition → List Raw
  | .compare _ _ right => right.bound
  | .connect left _ right => Condition.args left ++ Condition.args right

/-- The reference-like kinds: channel, function, interface, map, pointer, slice. -/
def isReferenceLike : Kind → Bool
  | .Chan | .Func | .Interface | .Map | .Ptr | .Slice => true
  | _ => false

/-- The plain value kinds: booleans, numbers, strings, arrays and structs. -/
def isPlainValue : Kind → Bool
  | .Bool | .Int | .Int8 | .Int16 | .Int32 | .Int64
  | .Uint | .Uint8 | .Uint16 | .Uint32 | .Uint64 | .Uintptr
  | .Float32 | .Float64 | .Complex64 | .Complex128 | .Array | .String | .Struct => true
  | _ => false

/-- The base-10 digits of a natural number as text, most significant digit first (`0` for
zero). -/
def decimal (n : Nat) : String :=
  String.mk (if n = 0 then ['0'] else (Nat.digits 10 n).reverse.map Nat.digitChar)

/-- The environment with another active dialect, everything else unchanged. -/
def Env.withDialect (e : Env) (d : Dialect) : Env :=
  { e with dialect := d }

/-- A token sequence without its text tokens: the placeholders and the errors, in order. -/
def stripText : List Frag → List Frag
  | [] => []
  | .text _ :: fs => stripText fs
  | f :: fs => f :: stripText fs

/-- The arguments that an assignment contributes: those of its value when its column accepts
the value, none otherwise. -/
def updateValue.bound (e : Env) (m : updateValue) : List Sqlbuilder.Raw :=
  if m.col.acceptType e m.val then m.val.bound else []

/-- The wall clock of a timestamp in its own zone, in seconds since 1970-01-01 00:00:00. -/
def Time.wall (t : Time) : Int := t.unix + t.offset

/-- The calendar year of a timestamp in its own zone. -/
def Time.year (t : Time) : Int := (civilFromDays (t.wall / 86400)).1

/-- The month (1 to 12) of a timestamp in its own zone. -/
def Time.month (t : Time) : Nat := (civilFromDays (t.wall / 86400)).2.1

/-- The day of the month of a timestamp in its own zone. -/
def Time.day (t : Time) : Nat := (civilFromDays (t.wall / 86400)).2.2

/-- The hour of the day of a timestamp in its own zone. -/
def Time.hour (t : Time) : Nat := (t.wall % 86400).toNat / 3600

/-- The minute of the hour of a timestamp in its own zone. -/
def Time.minute (t : Time) : Nat := (t.wall % 86400).toNat % 3600 / 60

/-- The second of the minute of a timestamp in its own zone. -/
def Time.second (t : Time) : Nat := (t.wall % 86400).toNat % 60

/-- The instant 1970-01-01T00:00:00Z held in the zone UTC+9. -/
def epochInTokyo : Time := { unix := 0, nsec := 0, offset := 9 * 3600 }

/-- The base-10 digits of an integer as text, with a leading `-` when it is negative. -/
def signedDecimal (v : Int) : String :=
  if v < 0 then "-" ++ decimal v.natAbs else decimal v.natAbs

/-! ## The Gregorian calendar, stated without the conversion algorithm -/

/-- A year of the proleptic Gregorian calendar is a leap year when it is divisible by 4 and
not by 100, or divisible by 400. -/
def isLeapYear (y : Int) : Bool :=
  y % 4 = 0 ∧ (y % 100 ≠ 0 ∨ y % 400 = 0)

/-- The number of days of month `m` (1 to 12) of year `y`. -/
def daysInMonth (y : Int) (m : Nat) : Nat :=
  match m with
  | 1 => 31
  | 2 => if isLeapYear y then 29 else 28
  | 3 => 31
  | 4 => 30
  | 5 => 31
  | 6 => 30
  | 7 => 31
  | 8 => 31
  | 9 => 30
  | 10 => 31
  | 11 => 30
  | 12 => 31
  | _ => 0

/-- The number of days of year `y` that lie before the first day of its month `m`. -/
def daysBeforeMonth (y : Int) (m : Nat) : Nat :=
  ((List.range (m - 1)).map (fun k => daysInMonth y (k + 1))).sum

/-- The number of leap years among the years 1 to `y - 1`. -/
def leapYearsBefore (y : Int) : Int :=
  (y - 1) / 4 - (y - 1) / 100 + (y - 1) / 400

/-- The number of days from 1970-01-01 to the first of January of year `y`. -/
def daysBeforeYear (y : Int) : Int :=
  365 * (y - 1970) + (leapYearsBefore y - leapYearsBefore 1970)

/-- The number of days from 1970-01-01 to the day `d` of month `m` of year `y`. -/
def dayNumber (y : Int) (m d : Nat) : Int :=
  daysBeforeYear y + daysBeforeMonth y m + ((d : Int) - 1)

/-- A date of the calendar: a month from 1 to 12 and a day that the month of that year has. -/
def validDate (y : Int) (m d : Nat) : Prop :=
  1 ≤ m ∧ m ≤ 12 ∧ 1 ≤ d ∧ d ≤ daysInMonth y m

instance validDate.decide (y : Int) (m d : Nat) : Decidable (validDate y m d) := by
  unfold validDate
  infer_instance

/-- The last second of 2024-02-29 in the zone UTC-5, with a sub-second part. -/
def leapDayEvening : Time :=
  { unix := 1709269199, nsec := 999999999, offset := -(5 * 3600) }

/-! ## A concrete schema for the examples -/

/-- A dialect that leaves identifiers unquoted and writes every placeholder as `?`. -/
def plainDialect : Dialect where
  QuerySuffix := ""
  BindVar := fun _ => "?"
  QuoteField := fun str => str

/-- An environment for the examples: integer columns accept every signed and unsigned integer
type, text columns strings, date columns timestamps, float columns floats, boolean columns
booleans and byte columns byte sequences. -/
def exampleEnv : Env where
  dialect := plainDialect
  capable := fun t n =>
    match t with
    | .ColumnTypeInt =>
      ["int", "int8", "int16", "int32", "int64",
        "uint", "uint8", "uint16", "uint32", "uint64"].contains n
    | .ColumnTypeString => n == "string"
    | .ColumnTypeDate => n == "time.Time"
    | .ColumnTypeFloat => ["float32", "float64"].contains n
    | .ColumnTypeBool => n == "bool"
    | .ColumnTypeBytes => n == "[]uint8"
  typeString := fun t =>
    match t with
    | .ColumnTypeInt => "int"
    | .ColumnTypeString => "string"
    | .ColumnTypeDate => "date"
    | .ColumnTypeFloat => "float"
    | .ColumnTypeBool => "bool"
    | .ColumnTypeBytes => "bytes"

/-- The column `id` of the table PERSON. -/
def personId : Column := { name := "id", typ := ColumnType.ColumnTypeInt }

/-- The column `name` of the table PERSON. -/
def personName : Column := { name := "name", typ := ColumnType.ColumnTypeString }

/-- The column `birth` of the table PERSON. -/
def personBirth : Column := { name := "birth", typ := ColumnType.ColumnTypeDate }

/-- The table PERSON of the example scenario in `sqlbuilder_test.go`. -/
def PERSON : Table := { name := "PERSON", columns := [personId, personName, personBirth] }

/-- The timestamp 1992-07-25T00:00:00Z. -/
def birthday : Time := { unix := 712022400, nsec := 0, offset := 0 }

/-- An Update used in the examples: one assignment, a condition, a negative limit and an
offset. -/
def exampleUpdate : UpdateStatement :=
  ((((Update (some PERSON)).Set personName (Raw.string "a")).Where
    (some (Condition.compare personId "=" (toLiteral (Raw.int 5))))).Limit (-3)).Offset 2

/-- An Update on a nil table used in the examples: an accepted and a rejected assignment, a
limit and an offset. -/
def nilTableUpdate : UpdateStatement :=
  ((((Update none).Set personName (Raw.string "a")).Set personId (Raw.string "bad")).Limit
    3).Offset 4

/-- An Update used in the examples whose second assignment is the first to be rejected. -/
def rejectedUpdate : UpdateStatement :=
  (((Update (some PERSON)).Set personName (Raw.string "a")).Set personId
    (Raw.string "bad")).Set personBirth (Raw.int 7)

/-- A dialect that leaves identifiers unquoted and writes the i-th placeholder as `$i`. -/
def numberedDialect : Dialect where
  QuerySuffix := ""
  BindVar := fun i => "$" ++ Nat.repr i
  QuoteField := fun str => str

/-- The environment of the examples with numbered placeholders. -/
def numberedEnv : Env := exampleEnv.withDialect numberedDialect

/-- An Update without assignments: a condition, a negative limit and an offset. -/
def unassignedUpdate : UpdateStatement :=
  (((Update (some PERSON)).Where
    (some (Condition.compare personId "=" (toLiteral (Raw.int 5))))).Limit (-3)).Offset 2

/-! # Theorems -/

/-! ## The accumulator: frame lemmas -/

@[simp] theorem builder_Append_err (b : builder) (s : String) : (b.Append s).err = b.err := rfl

@[simp] theorem builder_Append_args (b : builder) (s : String) : (b.Append s).args = b.args := rfl

@[simp] theorem builder_Append_query (b : builder) (s : String) :
    (b.Append s).query = b.query ++ s := rfl

@[simp] theorem builder_AppendValue_err (e : Env) (b : builder) (v : Raw) :
    (b.AppendValue e v).err = b.err := rfl

@[simp] theorem builder_AppendValue_args (e : Env) (b : builder) (v : Raw) :
    (b.AppendValue e v).args = b.args ++ [v] := rfl

@[simp] theorem builder_AppendValue_query (e : Env) (b : builder) (v : Raw) :
    (b.AppendValue e v).query = b.query ++ e.dialect.BindVar (b.args.length + 1) := rfl

@[simp] theorem builder_SetError_args (b : builder) (err : Error) :
    (b.SetError err).args = b.args := by
  unfold builder.SetError; cases b.err <;> rfl

@[simp] theorem builder_SetError_query (b : builder) (err : Error) :
    (b.SetError err).query = b.query := by
  unfold builder.SetError; cases b.err <;> rfl

theorem builder_SetError_err (b : builder) (err : Error) :
    (b.SetError err).err = some (b.err.getD err) := by
  unfold builder.SetError; cases h : b.err <;> simp [h]

theorem builder_SetError_of_none (b : builder) (err : Error) (h : b.err = none) :
    (b.SetError err).err = some err := by
  rw [builder_SetError_err, h]; rfl

@[simp] theorem column_serialize_err (e : Env) (c : Column) (b : builder) :
    (c.serialize e b).err = b.err := rfl

@[simp] theorem table_serialize_err (e : Env) (t : Table) (b : builder) :
    (t.serialize e b).err = b.err := rfl

/-- A loop over items that leave the error alone leaves the error alone. -/
theorem appendItemsLoop_err {α : Type} (ser : α → builder → builder) (sep : String)
    (hser : ∀ a b, (ser a b).err = b.err) (first : Bool) (ps : List α) (b : builder) :
    (appendItemsLoop ser sep first ps b).err = b.err := by
  induction ps generalizing first b with
  | nil => rfl
  | cons p ps ih =>
    simp only [appendItemsLoop]
    rw [ih, hser]
    cases first <;> rfl

@[simp] theorem columnList_serialize_err (e : Env) (cs : List Column) (b : builder) :
    (ColumnList.serialize e cs b).err = b.err := by
  unfold ColumnList.serialize builder.AppendItems
  exact appendItemsLoop_err (Column.serialize e) ", " (fun _ _ => rfl) true cs b

theorem literal_serialize_err (e : Env) (l : literalImpl) (b : builder) :
    (l.serialize e b).err = b.err := by
  unfold literalImpl.serialize; split <;> rfl

/-! ## The type-checking loop of Insert -/

theorem checkTypes_eq_none_iff (e : Env) (cs : List Column) (vs : List literalImpl) :
    InsertStatement.checkTypes e cs vs = none ↔
      ∀ p ∈ List.zip cs vs, p.1.acceptType e p.2 = true := by
  induction cs generalizing vs with
  | nil => simp [InsertStatement.checkTypes]
  | cons c cs ih =>
    cases vs with
    | nil => simp [InsertStatement.checkTypes]
    | cons v vs =>
      cases h : c.acceptType e v <;> simp [InsertStatement.checkTypes, h, ih]

theorem checkTypes_first_rejected (e : Env) (cs : List Column) (vs : List literalImpl)
    (i : Nat) (c : Column) (v : literalImpl)
    (hi : (List.zip cs vs)[i]? = some (c, v)) (hrej : c.acceptType e v = false)
    (hbefore : ∀ j, j < i → ∀ p, (List.zip cs vs)[j]? = some p → p.1.acceptType e p.2 = true) :
    InsertStatement.checkTypes e cs vs = some (notAcceptError e c v) := by
  induction cs generalizing vs i with
  | nil => simp at hi
  | cons c0 cs ih =>
    cases vs with
    | nil => simp at hi
    | cons v0 vs =>
      cases i with
      | zero =>
        simp at hi
        obtain ⟨rfl, rfl⟩ := hi
        simp [InsertStatement.checkTypes, hrej]
      | succ i =>
        have h0 : c0.acceptType e v0 = true := hbefore 0 (Nat.succ_pos i) (c0, v0) (by simp)
        simp only [InsertStatement.checkTypes, h0, Bool.not_true, Bool.false_eq_true, if_false]
        apply ih vs i
        · simpa using hi
        · intro j hj p hp
          exact hbefore (j + 1) (Nat.succ_lt_succ hj) p (by simpa using hp)

/-- The method `ToSql` on a builder whose table is present: the column default, then the
emission. -/
theorem insert_ToSql_some (e : Env) (b : InsertStatement) (t : Table)
    (hinto : b.into = some t) :
    b.ToSql e = ({ b with columns := b.effectiveColumns t },
      insertEmit e t (b.effectiveColumns t) b.values) := by
  obtain ⟨cols, vals, into⟩ := b
  cases hinto
  cases cols <;>
    (simp [InsertStatement.ToSql, insertEmit, InsertStatement.effectiveColumns, countError,
      Table.Columns]
     split
     · split <;> rfl
     · rfl)

theorem insert_ToSql_none (e : Env) (b : InsertStatement) (hinto : b.into = none) :
    b.ToSql e = (b, Result.mk "INSERT INTO " [] (some (newError "into is nil"))) := by
  obtain ⟨cols, vals, into⟩ := b
  cases hinto
  rfl

theorem insertEmit_err (e : Env) (t : Table) (cs : List Column) (vals : List literalImpl) :
    (insertEmit e t cs vals).err =
      if cs.length ≠ vals.length then some (countError cs.length vals.length)
      else InsertStatement.checkTypes e cs vals := by
  unfold insertEmit
  by_cases hlen : cs.length = vals.length
  · simp only [hlen, ne_eq, not_true_eq_false, if_false]
    cases hchk : InsertStatement.checkTypes e cs vals with
    | none =>
      simp only [builder.result, builder.Err, builder.AppendItems, builder.AppendItem]
      rw [builder_Append_err, appendItemsLoop_err _ _ (literal_serialize_err e)]
      simp [newBuilder]
    | some err =>
      simp only [builder.result, builder.Err]
      rw [builder_SetError_of_none]
      simp [builder.AppendItem, newBuilder]
  · simp only [hlen, ne_eq, not_false_eq_true, if_true]
    simp only [builder.result, builder.Err]
    rw [builder_SetError_of_none]
    simp [builder.AppendItem, newBuilder]

theorem insert_ToSql_err (e : Env) (b : InsertStatement) (t : Table)
    (hinto : b.into = some t) :
    (b.ToSql e).2.err =
      if (b.effectiveColumns t).length ≠ b.values.length then
        some (countError (b.effectiveColumns t).length b.values.length)
      else InsertStatement.checkTypes e (b.effectiveColumns t) b.values := by
  rw [insert_ToSql_some e b t hinto]
  exact insertEmit_err e t _ _

/-! ## Insert: validation -/

/-- C1: an Insert with a table present whose effective column list (the configured one, or the
full column list of the table when none is configured) and value list differ in length returns
a non-nil error, the count-mismatch error naming both counts. -/
theorem insert_count_mismatch (e : Env) (b : InsertStatement) (t : Table)
    (hinto : b.into = some t)
    (hlen : (b.effectiveColumns t).length ≠ b.values.length) :
    (b.ToSql e).2.err ≠ none ∧
      (b.ToSql e).2.err =
        some (newError (Nat.repr (b.effectiveColumns t).length ++ " values needed, but got " ++
          Nat.repr b.values.length)) := by
  have h := insert_ToSql_err e b t hinto
  rw [if_pos hlen] at h
  rw [h]
  exact ⟨by simp, rfl⟩

theorem insert_count_mismatch_witness :
    ((Insert (some PERSON)).Values [Raw.int 1, Raw.string "x"]).into = some PERSON ∧
    (((Insert (some PERSON)).Values [Raw.int 1, Raw.string "x"]).effectiveColumns PERSON).length
      ≠ ((Insert (some PERSON)).Values [Raw.int 1, Raw.string "x"]).values.length ∧
    (((Insert (some PERSON)).Values [Raw.int 1, Raw.string "x"]).ToSql exampleEnv).2.err =
      some (Error.mk "sqlbuilder: 3 values needed, but got 2") :=
  ⟨rfl, by decide,
    (insert_count_mismatch exampleEnv ((Insert (some PERSON)).Values [Raw.int 1, Raw.string "x"])
      PERSON rfl (by decide)).2⟩

/-- C2: the error of an Insert follows the validation order table, count, type.  A nil table
gives "into is nil" whatever else is configured; otherwise a count mismatch gives the
count-mismatch error, whether or not a column rejects its value; otherwise the first column (in
index order) that rejects its paired value gives the type-mismatch error naming that column
type and the type of that value; and the error is nil exactly when the table is present, the
counts agree and every column accepts its paired value. -/
theorem insert_validation_order (e : Env) (b : InsertStatement) :
    (b.into = none → (b.ToSql e).2.err = some (newError "into is nil")) ∧
    (∀ t, b.into = some t → (b.effectiveColumns t).length ≠ b.values.length →
      (b.ToSql e).2.err =
        some (newError (Nat.repr (b.effectiveColumns t).length ++ " values needed, but got " ++
          Nat.repr b.values.length))) ∧
    (∀ (t : Table) (i : Nat) (c : Column) (v : literalImpl),
      b.into = some t → (b.effectiveColumns t).length = b.values.length →
      (List.zip (b.effectiveColumns t) b.values)[i]? = some (c, v) →
      c.acceptType e v = false →
      (∀ j, j < i → ∀ p : Column × literalImpl,
        (List.zip (b.effectiveColumns t) b.values)[j]? = some p →
        p.1.acceptType e p.2 = true) →
      (b.ToSql e).2.err =
        some (newError (e.typeString c.typ ++ " column not accept " ++ v.raw.typeName))) ∧
    ((b.ToSql e).2.err = none ↔
      ∃ t, b.into = some t ∧ (b.effectiveColumns t).length = b.values.length ∧
        ∀ p ∈ List.zip (b.effectiveColumns t) b.values, p.1.acceptType e p.2 = true) := by
  refine ⟨?_, ?_, ?_, ?_⟩
  · intro hinto
    rw [insert_ToSql_none e b hinto]
  · intro t hinto hlen
    rw [insert_ToSql_err e b t hinto, if_pos hlen]
    rfl
  · intro t i c v hinto hlen hi hrej hbefore
    rw [insert_ToSql_err e b t hinto, if_neg (not_not.mpr hlen)]
    exact checkTypes_first_rejected e _ _ i c v hi hrej hbefore
  · cases hinto : b.into with
    | none =>
      rw [insert_ToSql_none e b hinto]
      simp
    | some t =>
      rw [insert_ToSql_err e b t hinto]
      by_cases hlen : (b.effectiveColumns t).length = b.values.length
      · rw [if_neg (not_not.mpr hlen), checkTypes_eq_none_iff]
        constructor
        · intro h
          exact ⟨t, rfl, hlen, h⟩
        · rintro ⟨t2, ht2, -, h⟩
          cases ht2
          exact h
      · rw [if_pos hlen]
        constructor
        · intro h
          simp at h
        · rintro ⟨t2, ht2, h2, -⟩
          cases ht2
          exact absurd h2 hlen

theorem insert_validation_order_witness :
    (((Insert (some PERSON)).Values [Raw.int 1, Raw.int 3, Raw.string "x"]).ToSql exampleEnv).2.err
        = some (Error.mk "sqlbuilder: string column not accept int") ∧
    (((Insert none).Values [Raw.int 1]).ToSql exampleEnv).2.err
        = some (Error.mk "sqlbuilder: into is nil") ∧
    (((Insert (some PERSON)).Values [Raw.string "x", Raw.int 1]).ToSql exampleEnv).2.err
        = some (Error.mk "sqlbuilder: 3 values needed, but got 2") :=
  ⟨(insert_validation_order exampleEnv
      ((Insert (some PERSON)).Values [Raw.int 1, Raw.int 3, Raw.string "x"])).2.2.1
      PERSON 1 personName (toLiteral (Raw.int 3)) rfl rfl rfl (by decide)
      (by
        intro j hj p hp
        have hj0 : j = 0 := by omega
        subst hj0
        have hp0 : p = (personId, toLiteral (Raw.int 1)) := by
          have : some (personId, toLiteral (Raw.int 1)) = some p := hp
          exact (Option.some.inj this).symm
        subst hp0
        decide),
    (insert_validation_order exampleEnv ((Insert none).Values [Raw.int 1])).1 rfl,
    (insert_validation_order exampleEnv
      ((Insert (some PERSON)).Values [Raw.string "x", Raw.int 1])).2.1 PERSON rfl (by decide)⟩

/-! ## Token sequences and the accumulator -/

theorem emit_append (e : Env) (fs gs : List Frag) (b : builder) :
    emit e (fs ++ gs) b = emit e gs (emit e fs b) := by
  induction fs generalizing b with
  | nil => rfl
  | cons f fs ih => cases f <;> simp [emit, ih]

theorem emit_query (e : Env) (fs : List Frag) (b : builder) :
    (emit e fs b).query = b.query ++ renderFrags e.dialect b.args.length fs := by
  induction fs generalizing b with
  | nil => simp [emit, renderFrags]
  | cons f fs ih =>
    cases f <;> simp [emit, renderFrags, ih, String.append_assoc]

theorem emit_args (e : Env) (fs : List Frag) (b : builder) :
    (emit e fs b).args = b.args ++ boundValues fs := by
  induction fs generalizing b with
  | nil => simp [emit, boundValues]
  | cons f fs ih => cases f <;> simp [emit, boundValues, ih]

theorem emit_err (e : Env) (fs : List Frag) (b : builder) :
    (emit e fs b).err = match b.err with
      | some err => some err
      | none => firstFailure fs := by
  induction fs generalizing b with
  | nil => cases h : b.err <;> simp [emit, firstFailure, h]
  | cons f fs ih =>
    cases f <;> cases h : b.err <;>
      simp [emit, firstFailure, ih, h, builder_SetError_err]

theorem boundValues_append (fs gs : List Frag) :
    boundValues (fs ++ gs) = boundValues fs ++ boundValues gs := by
  induction fs with
  | nil => rfl
  | cons f fs ih => cases f <;> simp [boundValues, ih]

theorem boundValues_length (fs : List Frag) : (boundValues fs).length = placeholderCount fs := by
  induction fs with
  | nil => rfl
  | cons f fs ih => cases f <;> simp [boundValues, placeholderCount, ih]

theorem renderFrags_append (d : Dialect) (k : Nat) (fs gs : List Frag) :
    renderFrags d k (fs ++ gs) =
      renderFrags d k fs ++ renderFrags d (k + (boundValues fs).length) gs := by
  induction fs generalizing k with
  | nil => simp [renderFrags, boundValues]
  | cons f fs ih =>
    cases f <;> simp [renderFrags, boundValues, ih, String.append_assoc]
    rw [Nat.add_right_comm k 1, Nat.add_assoc k]

theorem firstFailure_append (fs gs : List Frag) :
    firstFailure (fs ++ gs) = match firstFailure fs with
      | some err => some err
      | none => firstFailure gs := by
  induction fs with
  | nil => simp [firstFailure]
  | cons f fs ih => cases f <;> simp [firstFailure, ih]

/-! ## Each serializable item emits its token sequence -/

theorem literal_serialize_eq (e : Env) (l : literalImpl) (b : builder) :
    l.serialize e b = emit e l.frags b := by
  unfold literalImpl.serialize literalImpl.frags
  split <;> rfl

theorem column_serialize_eq (e : Env) (c : Column) (b : builder) :
    c.serialize e b = emit e (c.frags e) b := rfl

theorem table_serialize_eq (e : Env) (t : Table) (b : builder) :
    t.serialize e b = emit e (t.frags e) b := rfl

theorem updateValue_serialize_eq (e : Env) (m : updateValue) (b : builder) :
    m.serialize e b = emit e (m.frags e) b := by
  unfold updateValue.serialize updateValue.frags
  cases h : m.col.acceptType e m.val
  · rfl
  · simp [emit, builder.AppendItem, literal_serialize_eq]

theorem condition_serialize_eq (e : Env) (c : Condition) (b : builder) :
    c.serialize e b = emit e (c.frags e) b := by
  induction c generalizing b with
  | compare left operator right =>
    simp [Condition.serialize, Condition.frags, builder.AppendItem, emit_append, emit,
      column_serialize_eq, literal_serialize_eq]
  | connect left connective right ihl ihr =>
    simp [Condition.serialize, Condition.frags, builder.AppendItem, emit_append, emit, ihl, ihr]

theorem orderBy_serialize_eq (e : Env) (m : orderBy) (b : builder) :
    m.serialize e b = emit e (m.frags e) b := by
  simp [orderBy.serialize, orderBy.frags, builder.AppendItem, emit_append, emit,
    column_serialize_eq]

/-- The loop of `AppendItems` emits the items' tokens, each preceded by the separator, the
first one excepted when `first` holds. -/
theorem appendItemsLoop_eq {α : Type} (e : Env) (ser : α → builder → builder)
    (fr : α → List Frag) (hser : ∀ a b, ser a b = emit e (fr a) b) (sep : String)
    (first : Bool) (ps : List α) (b : builder) :
    appendItemsLoop ser sep first ps b =
      emit e (if first then joinFrags sep (ps.map fr) else sepFrags sep (ps.map fr)) b := by
  induction ps generalizing first b with
  | nil => cases first <;> rfl
  | cons p ps ih =>
    simp only [appendItemsLoop, List.map_cons]
    rw [ih, hser]
    cases first <;> simp [joinFrags, sepFrags, emit, emit_append]

theorem appendItems_eq {α : Type} (e : Env) (ser : α → builder → builder)
    (fr : α → List Frag) (hser : ∀ a b, ser a b = emit e (fr a) b) (sep : String)
    (ps : List α) (b : builder) :
    b.AppendItems ser ps sep = emit e (joinFrags sep (ps.map fr)) b := by
  unfold builder.AppendItems
  rw [appendItemsLoop_eq e ser fr hser]
  rfl

/-! ## Joined texts -/

theorem intercalate_go_eq (sep acc : String) (xs : List String) :
    String.intercalate.go acc sep xs = acc ++ sepText sep xs := by
  induction xs generalizing acc with
  | nil => simp [String.intercalate.go, sepText]
  | cons x xs ih => simp [String.intercalate.go, sepText, ih, String.append_assoc]

theorem intercalate_cons_eq (sep x : String) (xs : List String) :
    String.intercalate sep (x :: xs) = x ++ sepText sep xs := by
  simp [String.intercalate, intercalate_go_eq]

theorem render_sepFrags_text (d : Dialect) (sep : String) (k : Nat) (xs : List String) :
    renderFrags d k (sepFrags sep (xs.map (fun x => [Frag.text x]))) = sepText sep xs := by
  induction xs with
  | nil => rfl
  | cons x xs ih => simp [sepFrags, renderFrags, sepText, ih, String.append_assoc]

theorem render_joinFrags_text (d : Dialect) (sep : String) (k : Nat) (xs : List String) :
    renderFrags d k (joinFrags sep (xs.map (fun x => [Frag.text x]))) =
      String.intercalate sep xs := by
  cases xs with
  | nil => rfl
  | cons x xs =>
    simp [joinFrags, renderFrags, intercalate_cons_eq, render_sepFrags_text]

theorem bindVar_shift (d : Dialect) (k : Nat) :
    ((fun i => d.BindVar (k + i + 1)) ∘ Nat.succ) = (fun i => d.BindVar (k + 1 + i + 1)) := by
  funext i
  simp only [Function.comp, Nat.succ_eq_add_one]
  congr 1
  omega

theorem render_sepFrags_bind (d : Dialect) (sep : String) (k : Nat) (vs : List Raw) :
    renderFrags d k (sepFrags sep (vs.map (fun v => [Frag.bind v]))) =
      sepText sep ((List.range vs.length).map (fun i => d.BindVar (k + i + 1))) := by
  induction vs generalizing k with
  | nil => rfl
  | cons v vs ih =>
    show renderFrags d k (Frag.text sep :: Frag.bind v :: sepFrags sep (vs.map _)) = _
    rw [List.length_cons, List.range_succ_eq_map, List.map_cons, List.map_map, bindVar_shift]
    simp only [renderFrags, sepText, ih, String.append_assoc]

theorem render_joinFrags_bind (d : Dialect) (sep : String) (k : Nat) (vs : List Raw) :
    renderFrags d k (joinFrags sep (vs.map (fun v => [Frag.bind v]))) =
      String.intercalate sep ((List.range vs.length).map (fun i => d.BindVar (k + i + 1))) := by
  cases vs with
  | nil => rfl
  | cons v vs =>
    show renderFrags d k (Frag.bind v :: sepFrags sep (vs.map _)) = _
    rw [List.length_cons, List.range_succ_eq_map, List.map_cons, List.map_map, bindVar_shift,
      intercalate_cons_eq]
    simp only [renderFrags, render_sepFrags_bind]

theorem firstFailure_sepFrags_none (sep : String) (xs : List (List Frag))
    (h : ∀ x ∈ xs, firstFailure x = none) : firstFailure (sepFrags sep xs) = none := by
  induction xs with
  | nil => rfl
  | cons x xs ih =>
    simp only [sepFrags, firstFailure, firstFailure_append]
    rw [h x (List.mem_cons_self x xs), ih (fun y hy => h y (List.mem_cons_of_mem x hy))]

theorem firstFailure_joinFrags_none (sep : String) (xs : List (List Frag))
    (h : ∀ x ∈ xs, firstFailure x = none) : firstFailure (joinFrags sep xs) = none := by
  cases xs with
  | nil => rfl
  | cons x xs =>
    simp only [joinFrags, firstFailure_append]
    rw [h x (List.mem_cons_self x xs),
      firstFailure_sepFrags_none sep xs (fun y hy => h y (List.mem_cons_of_mem x hy))]

theorem boundValues_sepFrags_bind (sep : String) (vs : List Raw) :
    boundValues (sepFrags sep (vs.map (fun v => [Frag.bind v]))) = vs := by
  induction vs with
  | nil => rfl
  | cons v vs ih => simp [sepFrags, boundValues, ih]

theorem boundValues_joinFrags_bind (sep : String) (vs : List Raw) :
    boundValues (joinFrags sep (vs.map (fun v => [Frag.bind v]))) = vs := by
  cases vs with
  | nil => rfl
  | cons v vs => simp [joinFrags, boundValues, boundValues_sepFrags_bind]

theorem boundValues_sepFrags_text (sep : String) (xs : List String) :
    boundValues (sepFrags sep (xs.map (fun x => [Frag.text x]))) = [] := by
  induction xs with
  | nil => rfl
  | cons x xs ih => simp [sepFrags, boundValues, ih]

theorem boundValues_joinFrags_text (sep : String) (xs : List String) :
    boundValues (joinFrags sep (xs.map (fun x => [Frag.text x]))) = [] := by
  cases xs with
  | nil => rfl
  | cons x xs => simp [joinFrags, boundValues, boundValues_sepFrags_text]

/-! ## Insert: emission -/

/-- A successful Insert of bound values: the text and the arguments. -/
theorem insertEmit_success (e : Env) (t : Table) (cs : List Column) (vs : List Raw)
    (hlen : cs.length = vs.length)
    (hacc : ∀ p ∈ List.zip cs (vs.map toLiteral), p.1.acceptType e p.2 = true) :
    insertEmit e t cs (vs.map toLiteral) =
      Result.mk
        ("INSERT INTO " ++ e.dialect.QuoteField t.name ++ " ( " ++
          ", ".intercalate (cs.map (fun c => e.dialect.QuoteField c.name)) ++ " ) VALUES ( " ++
          ", ".intercalate ((List.range vs.length).map (fun i => e.dialect.BindVar (i + 1))) ++
          " )")
        vs none := by
  have hchk := (checkTypes_eq_none_iff e cs (vs.map toLiteral)).mpr hacc
  have hcols : cs.map (Column.frags e) =
      (cs.map (fun c => e.dialect.QuoteField c.name)).map (fun x => [Frag.text x]) := by
    simp [Column.frags]
  have hvals : (vs.map toLiteral).map literalImpl.frags = vs.map (fun v => [Frag.bind v]) := by
    simp [literalImpl.frags, toLiteral]
  unfold insertEmit
  simp only [List.length_map, hlen, ne_eq, not_true_eq_false, if_false, hchk]
  simp only [builder.result, builder.Query, builder.Args, builder.Err, builder.AppendItem,
    ColumnList.serialize, table_serialize_eq, appendItems_eq e _ _ (column_serialize_eq e),
    appendItems_eq e _ _ (literal_serialize_eq e), builder_Append_query, builder_Append_args,
    builder_Append_err, emit_query, emit_args, emit_err, hcols, hvals,
    render_joinFrags_text, render_joinFrags_bind, boundValues_joinFrags_bind,
    boundValues_joinFrags_text]
  rw [firstFailure_joinFrags_none _ _ (by simp [firstFailure]),
    firstFailure_joinFrags_none _ _ (by simp [firstFailure])]
  simp [newBuilder, Table.frags, renderFrags, boundValues, firstFailure, String.append_assoc]

theorem insert_set_fold (ps : List (Column × Raw)) (b : InsertStatement) :
    ps.foldl (fun b p => b.Set p.1 p.2) b =
      InsertStatement.mk (b.columns ++ ps.map Prod.fst)
        (b.values ++ (ps.map Prod.snd).map toLiteral) b.into := by
  induction ps generalizing b with
  | nil => simp
  | cons p ps ih =>
    rw [List.foldl_cons, ih]
    simp [InsertStatement.Set]

/-- C3: an Insert built on a table that is present by n >= 1 calls of Set, every column
accepting its value, returns a nil error, the text `INSERT INTO table ( c1, ..., cn ) VALUES (
p1, ..., pn )` with the columns in call order and the n placeholders joined by a comma, and
the argument list `[v1, ..., vn]` in call order. -/
theorem insert_set_emission (e : Env) (t : Table) (ps : List (Column × Raw))
    (hne : ps ≠ [])
    (hacc : ∀ p ∈ ps, p.1.acceptType e (toLiteral p.2) = true) :
    ((ps.foldl (fun b p => b.Set p.1 p.2) (Insert (some t))).ToSql e).2 =
      Result.mk
        ("INSERT INTO " ++ e.dialect.QuoteField t.name ++ " ( " ++
          ", ".intercalate (ps.map (fun p => e.dialect.QuoteField p.1.name)) ++
          " ) VALUES ( " ++
          ", ".intercalate ((List.range ps.length).map (fun i => e.dialect.BindVar (i + 1))) ++
          " )")
        (ps.map Prod.snd) none := by
  rw [insert_set_fold, insert_ToSql_some e _ t rfl]
  have hcols : (ps.map Prod.fst) ≠ [] := by simpa using hne
  have heff : InsertStatement.effectiveColumns
      (InsertStatement.mk ((Insert (some t)).columns ++ ps.map Prod.fst)
        ((Insert (some t)).values ++ (ps.map Prod.snd).map toLiteral) (Insert (some t)).into) t
      = ps.map Prod.fst := by
    simp [InsertStatement.effectiveColumns, Insert, hne]
  simp only [heff]
  have hvals : (Insert (some t)).values ++ (ps.map Prod.snd).map toLiteral
      = (ps.map Prod.snd).map toLiteral := rfl
  simp only [hvals]
  rw [insertEmit_success e t (ps.map Prod.fst) (ps.map Prod.snd) (by simp)]
  · simp only [List.map_map, List.length_map]
    rfl
  · intro p hp
    rw [List.map_map, List.zip_map', List.mem_map] at hp
    obtain ⟨q, hq, rfl⟩ := hp
    exact hacc q hq

theorem insert_set_emission_witness :
    [(personName, Raw.string "Kurisu Makise"), (personBirth, Raw.time birthday)] ≠ [] ∧
    (∀ p ∈ [(personName, Raw.string "Kurisu Makise"), (personBirth, Raw.time birthday)],
      p.1.acceptType exampleEnv (toLiteral p.2) = true) ∧
    ((((Insert (some PERSON)).Set personName (Raw.string "Kurisu Makise")).Set personBirth
        (Raw.time birthday)).ToSql exampleEnv).2 =
      Result.mk "INSERT INTO PERSON ( name, birth ) VALUES ( ?, ? )"
        [Raw.string "Kurisu Makise", Raw.time birthday] none :=
  ⟨by decide, by decide,
    insert_set_emission exampleEnv PERSON
      [(personName, Raw.string "Kurisu Makise"), (personBirth, Raw.time birthday)]
      (by decide) (by decide)⟩

/-- C4: an Insert with a table present and an empty stored column list serializes and
validates against the full column list of the table, in declaration order: the stored list
becomes the table's, the result is the one of the builder on which that list is configured
explicitly, and with as many values as the table has columns, each accepted by the column of
the same index, the call succeeds with the declared columns in the text and the values as
arguments, in order. -/
theorem insert_default_columns (e : Env) (b : InsertStatement) (t : Table)
    (hinto : b.into = some t) (hcols : b.columns = []) :
    (b.ToSql e).1.columns = t.Columns ∧
    (b.ToSql e).2 = ((b.Columns t.Columns).ToSql e).2 ∧
    (∀ vs : List Raw, b.values = vs.map toLiteral → t.Columns.length = vs.length →
      (∀ p ∈ List.zip t.Columns vs, p.1.acceptType e (toLiteral p.2) = true) →
      (b.ToSql e).2 =
        Result.mk
          ("INSERT INTO " ++ e.dialect.QuoteField t.name ++ " ( " ++
            ", ".intercalate (t.Columns.map (fun c => e.dialect.QuoteField c.name)) ++
            " ) VALUES ( " ++
            ", ".intercalate ((List.range vs.length).map (fun i => e.dialect.BindVar (i + 1))) ++
            " )")
          vs none) := by
  have heff : b.effectiveColumns t = t.columns := by
    simp [InsertStatement.effectiveColumns, hcols]
  have heff2 : (b.Columns t.Columns).effectiveColumns t = t.columns := by
    simp only [InsertStatement.effectiveColumns, InsertStatement.Columns, Table.Columns]
    split
    · rfl
    · rfl
  refine ⟨?_, ?_, ?_⟩
  · rw [insert_ToSql_some e b t hinto, heff]
    rfl
  · rw [insert_ToSql_some e b t hinto, insert_ToSql_some e (b.Columns t.Columns) t hinto, heff,
      heff2]
    rfl
  · intro vs hvals hlen hacc
    rw [insert_ToSql_some e b t hinto, heff, hvals]
    apply insertEmit_success e t t.columns vs hlen
    intro p hp
    have hz : List.zip t.columns (vs.map toLiteral) =
        (List.zip t.columns vs).map (fun q => (q.1, toLiteral q.2)) := by
      rw [← List.map_id t.columns, List.zip_map, List.map_id]
      rfl
    rw [hz, List.mem_map] at hp
    obtain ⟨q, hq, rfl⟩ := hp
    exact hacc q hq

theorem insert_default_columns_witness :
    ((Insert (some PERSON)).Values [Raw.int 1, Raw.string "x", Raw.time birthday]).into
      = some PERSON ∧
    ((Insert (some PERSON)).Values [Raw.int 1, Raw.string "x", Raw.time birthday]).columns = [] ∧
    (((Insert (some PERSON)).Values
        [Raw.int 1, Raw.string "x", Raw.time birthday]).ToSql exampleEnv).1.columns
      = [personId, personName, personBirth] ∧
    (((Insert (some PERSON)).Values
        [Raw.int 1, Raw.string "x", Raw.time birthday]).ToSql exampleEnv).2 =
      Result.mk "INSERT INTO PERSON ( id, name, birth ) VALUES ( ?, ?, ? )"
        [Raw.int 1, Raw.string "x", Raw.time birthday] none :=
  ⟨rfl, rfl,
    (insert_default_columns exampleEnv
      ((Insert (some PERSON)).Values [Raw.int 1, Raw.string "x", Raw.time birthday]) PERSON
      rfl rfl).1,
    (insert_default_columns exampleEnv
      ((Insert (some PERSON)).Values [Raw.int 1, Raw.string "x", Raw.time birthday]) PERSON
      rfl rfl).2.2 [Raw.int 1, Raw.string "x", Raw.time birthday] rfl rfl (by decide)⟩

/-- C5 (as stated, refuted): an Insert on which no column list was ever set, holding one
accepted value for each column of its table, returns a nil error. -/
theorem insert_unset_columns_counterexample :
    ((Insert (some PERSON)).Values [Raw.int 1, Raw.string "x", Raw.time birthday]).columns = [] ∧
    ¬ ((((Insert (some PERSON)).Values
        [Raw.int 1, Raw.string "x", Raw.time birthday]).ToSql exampleEnv).2.err ≠ none) := by
  decide

/-- C5 (amended): an Insert on which the column list was never set (the stored list is empty)
is validated against the full column list of its table: it returns a non-nil error exactly
when the table is nil, or the number of values differs from the number of columns of the
table, or some column of the table rejects the value of the same index. -/
theorem insert_unset_columns_error (e : Env) (b : InsertStatement) (hcols : b.columns = []) :
    (b.ToSql e).2.err ≠ none ↔
      (b.into = none ∨
        ∃ t, b.into = some t ∧
          (t.Columns.length ≠ b.values.length ∨
            ∃ p ∈ List.zip t.Columns b.values, p.1.acceptType e p.2 = false)) := by
  cases hinto : b.into with
  | none =>
    rw [insert_ToSql_none e b hinto]
    simp
  | some t =>
    have heff : b.effectiveColumns t = t.columns := by
      simp [InsertStatement.effectiveColumns, hcols]
    rw [insert_ToSql_err e b t hinto, heff]
    by_cases hlen : t.columns.length = b.values.length
    · rw [if_neg (not_not.mpr hlen), ne_eq, checkTypes_eq_none_iff]
      simp [Table.Columns, hlen]
    · rw [if_pos hlen]
      simp [Table.Columns, hlen]

theorem insert_unset_columns_error_witness :
    (Insert (some PERSON)).columns = [] ∧
    ((Insert (some PERSON)).ToSql exampleEnv).2.err ≠ none :=
  ⟨rfl, (insert_unset_columns_error exampleEnv (Insert (some PERSON)) rfl).mpr
    (Or.inr ⟨PERSON, rfl, Or.inl (by decide)⟩)⟩

/-! ## Update -/

/-- The method `UpdateStatement.ToSql` emits the token sequence of the statement on a fresh
accumulator. -/
theorem update_ToSql_eq (e : Env) (b : UpdateStatement) :
    b.ToSql e = (b, (emit e (b.frags e) newBuilder).result) := by
  unfold UpdateStatement.ToSql
  simp only [UpdateStatement.frags, UpdateStatement.headFrags, UpdateStatement.whereFrags,
    UpdateStatement.orderFrags, UpdateStatement.limitFrags, UpdateStatement.offsetFrags,
    List.cons_append, List.append_assoc, emit, emit_append]
  congr 2
  cases b.table <;> cases hs : b.set <;> cases b.where_ <;> cases b.orderBy <;>
    by_cases hl : b.limit = 0 <;> by_cases ho : b.offset = 0 <;>
    simp [hl, ho, emit, emit_append, builder.AppendItem, table_serialize_eq,
      condition_serialize_eq, appendItems_eq e _ _ (updateValue_serialize_eq e),
      appendItems_eq e _ _ (orderBy_serialize_eq e)]

theorem update_err (e : Env) (b : UpdateStatement) :
    (b.ToSql e).2.err = firstFailure (b.frags e) := by
  rw [update_ToSql_eq]
  simp [builder.result, builder.Err, emit_err, newBuilder]

theorem update_args (e : Env) (b : UpdateStatement) :
    (b.ToSql e).2.args = boundValues (b.frags e) := by
  rw [update_ToSql_eq]
  simp [builder.result, builder.Args, emit_args, newBuilder]

theorem update_query (e : Env) (b : UpdateStatement) :
    (b.ToSql e).2.query = renderFrags e.dialect 0 (b.frags e) := by
  rw [update_ToSql_eq]
  simp [builder.result, builder.Query, emit_query, newBuilder]

/-- C6 (as stated, refuted): an Update without any Set call and with a nil table does not
return "length of sets is 0": the error of the nil table was recorded first. -/
theorem update_no_set_counterexample :
    (Update none).set = [] ∧
    ((Update none).ToSql exampleEnv).2.err ≠ some (newError "length of sets is 0") ∧
    ((Update none).ToSql exampleEnv).2.err = some (newError "table is nil") := by
  decide

/-- C6 (amended): an Update on which Set was never called returns a non-nil error whatever
condition, ordering, limit and offset are configured: "length of sets is 0" when its table is
present, and "table is nil", recorded first, when its table is nil. -/
theorem update_no_set_error (e : Env) (b : UpdateStatement) (hset : b.set = []) :
    (b.ToSql e).2.err =
      some (match b.table with
        | some _ => newError "length of sets is 0"
        | none => newError "table is nil") := by
  rw [update_err]
  cases ht : b.table <;>
    simp [UpdateStatement.frags, UpdateStatement.headFrags, hset, ht, firstFailure, Table.frags]

theorem update_no_set_error_witness :
    (((((Update (some PERSON)).Where
        (some (Condition.compare personId "=" (toLiteral (Raw.int 1))))).OrderBy true
          [personName]).Limit 3).Offset 4).set = [] ∧
    ((((((Update (some PERSON)).Where
        (some (Condition.compare personId "=" (toLiteral (Raw.int 1))))).OrderBy true
          [personName]).Limit 3).Offset 4).ToSql exampleEnv).2.err
      = some (Error.mk "sqlbuilder: length of sets is 0") :=
  ⟨rfl, update_no_set_error exampleEnv
    (((((Update (some PERSON)).Where
        (some (Condition.compare personId "=" (toLiteral (Raw.int 1))))).OrderBy true
          [personName]).Limit 3).Offset 4) rfl⟩

/-! ## Literals -/

/-- C10: `IsNil` is true exactly when the raw value is absent, or is of a reference-like kind
(channel, function, interface, map, pointer, slice) and is nil; on every raw value of a plain
value kind it is false, in particular on zero integers, the empty string, false and zero
floats. -/
theorem literal_IsNil_iff :
    (∀ l : literalImpl, l.IsNil = true ↔
      (l.raw = Raw.nil ∨ (isReferenceLike l.raw.kind = true ∧ l.raw.valueIsNil = true))) ∧
    (∀ l : literalImpl, isPlainValue l.raw.kind = true → l.IsNil = false) ∧
    (toLiteral (Raw.int 0)).IsNil = false ∧
    (toLiteral (Raw.uint64 0)).IsNil = false ∧
    (toLiteral (Raw.string "")).IsNil = false ∧
    (toLiteral (Raw.bool false)).IsNil = false ∧
    (toLiteral (Raw.float64 (GoFloat.finite false 0 0))).IsNil = false := by
  refine ⟨?_, ?_, rfl, rfl, rfl, rfl, rfl⟩
  · intro l
    unfold literalImpl.IsNil
    by_cases h : l.raw = Raw.nil
    · simp [h]
    · simp only [h, if_false, false_or]
      cases hk : l.raw.kind <;> simp [isReferenceLike]
  · intro l hp
    unfold literalImpl.IsNil
    by_cases h : l.raw = Raw.nil
    · rw [h] at hp
      simp [Raw.kind, isPlainValue] at hp
    · simp only [h, if_false]
      cases hk : l.raw.kind <;> simp [hk, isPlainValue] at hp ⊢

/-! ## Update: setters and emission order -/

theorem orderBy_fold (desc : Bool) (cols : List Column) (b : UpdateStatement)
    (items : List orderBy) (h : b.orderBy = some items) :
    cols.foldl
        (fun b c => { b with orderBy := some (b.orderBy.getD [] ++ [newOrderBy desc c]) }) b =
      { b with orderBy := some (items ++ cols.map (newOrderBy desc)) } := by
  induction cols generalizing b items with
  | nil =>
    obtain ⟨t, st, w, o, l, f⟩ := b
    simp at h
    simp [h]
  | cons c cs ih =>
    rw [List.foldl_cons, ih _ (items ++ [newOrderBy desc c]) (by simp [h])]
    simp

/-- The method `OrderBy` appends one item for each column to the ordering, which it first
makes non-nil. -/
theorem update_OrderBy_eq (b : UpdateStatement) (desc : Bool) (cols : List Column) :
    b.OrderBy desc cols =
      { b with orderBy := some (b.orderBy.getD [] ++ cols.map (newOrderBy desc)) } := by
  unfold UpdateStatement.OrderBy
  cases h : b.orderBy with
  | none =>
    simp only [if_true]
    rw [orderBy_fold desc cols _ [] rfl]
    rfl
  | some items =>
    simp only [reduceCtorEq, if_false]
    rw [orderBy_fold desc cols b items h]
    rfl

theorem render_sepFrags_plain (d : Dialect) (sep : String) (k : Nat) (xs : List (List Frag))
    (h : ∀ x ∈ xs, boundValues x = []) :
    renderFrags d k (sepFrags sep xs) = sepText sep (xs.map (renderFrags d k)) ∧
      boundValues (sepFrags sep xs) = [] := by
  induction xs with
  | nil => exact ⟨rfl, rfl⟩
  | cons x xs ih =>
    have hx := h x (List.mem_cons_self x xs)
    have ih2 := ih (fun y hy => h y (List.mem_cons_of_mem x hy))
    constructor
    · simp [sepFrags, renderFrags, sepText, renderFrags_append, hx, ih2.1, String.append_assoc]
    · simp [sepFrags, boundValues, boundValues_append, hx, ih2.2]

theorem render_joinFrags_plain (d : Dialect) (sep : String) (k : Nat) (xs : List (List Frag))
    (h : ∀ x ∈ xs, boundValues x = []) :
    renderFrags d k (joinFrags sep xs) = String.intercalate sep (xs.map (renderFrags d k)) ∧
      boundValues (joinFrags sep xs) = [] := by
  cases xs with
  | nil => exact ⟨rfl, rfl⟩
  | cons x xs =>
    have hx := h x (List.mem_cons_self x xs)
    have h2 := render_sepFrags_plain d sep k xs (fun y hy => h y (List.mem_cons_of_mem x hy))
    constructor
    · simp [joinFrags, renderFrags_append, hx, h2.1, intercalate_cons_eq]
    · simp [joinFrags, boundValues_append, hx, h2.2]

theorem orderFrags_plain (e : Env) (b : UpdateStatement) (k : Nat) :
    renderFrags e.dialect k (b.orderFrags e) =
      (match b.orderBy with
        | some items => " ORDER BY " ++ ", ".intercalate (items.map (fun m =>
            e.dialect.QuoteField m.column.name ++ (if m.desc then " DESC" else " ASC")))
        | none => "") ∧
      boundValues (b.orderFrags e) = [] := by
  unfold UpdateStatement.orderFrags
  cases b.orderBy with
  | none => exact ⟨rfl, rfl⟩
  | some items =>
    have h := render_joinFrags_plain e.dialect ", " k (items.map (orderBy.frags e))
      (by
        intro x hx
        rw [List.mem_map] at hx
        obtain ⟨m, -, rfl⟩ := hx
        rfl)
    constructor
    · simp only [renderFrags, h.1, List.map_map]
      congr 2
      apply List.map_congr_left
      intro m _
      simp [Function.comp, orderBy.frags, Column.frags, renderFrags]
    · simp only [boundValues, h.2]

theorem headFrags_plain (e : Env) (b : UpdateStatement) :
    renderFrags e.dialect 0 (b.headFrags e) =
      "UPDATE " ++ (match b.table with
        | some t => e.dialect.QuoteField t.name
        | none => "") ++ " SET " ++ renderFrags e.dialect 0 (b.setFrags e) ∧
      boundValues (b.headFrags e) = boundValues (b.setFrags e) := by
  unfold UpdateStatement.headFrags UpdateStatement.setFrags
  cases b.table <;> cases b.set <;>
    simp [renderFrags, boundValues, renderFrags_append, boundValues_append, Table.frags,
      joinFrags, String.append_assoc]
  all_goals
    rw [← String.append_assoc]
    rfl

theorem update_frags_render (e : Env) (b : UpdateStatement) :
    renderFrags e.dialect 0 (b.frags e) =
      renderFrags e.dialect 0 (b.headFrags e) ++
      renderFrags e.dialect (placeholderCount (b.setFrags e)) (b.whereFrags e) ++
      renderFrags e.dialect (placeholderCount (b.setFrags e) + placeholderCount (b.whereFrags e))
        (b.orderFrags e) ++
      renderFrags e.dialect (placeholderCount (b.setFrags e) + placeholderCount (b.whereFrags e))
        b.limitFrags ++
      renderFrags e.dialect (placeholderCount (b.setFrags e) + placeholderCount (b.whereFrags e)
        + placeholderCount b.limitFrags) b.offsetFrags := by
  unfold UpdateStatement.frags
  simp only [renderFrags_append, boundValues_append, List.length_append, (headFrags_plain e b).2,
    (orderFrags_plain e b 0).2, boundValues_length, List.length_nil, Nat.zero_add, Nat.add_zero]

theorem updateValue_frags_bound (e : Env) (m : updateValue)
    (h : m.col.acceptType e m.val = true ∧ m.val.placeholder = true) :
    m.frags e =
      [Frag.text (e.dialect.QuoteField m.col.name), Frag.text "=", Frag.bind m.val.raw] := by
  simp [updateValue.frags, literalImpl.frags, h.1, h.2]

theorem render_sepFrags_assign (e : Env) (k : Nat) (ms : List updateValue)
    (h : ∀ m ∈ ms, m.col.acceptType e m.val = true ∧ m.val.placeholder = true) :
    renderFrags e.dialect k (sepFrags ", " (ms.map (updateValue.frags e))) =
        sepText ", " (assignmentTexts e.dialect k ms) ∧
      placeholderCount (sepFrags ", " (ms.map (updateValue.frags e))) = ms.length := by
  induction ms generalizing k with
  | nil => exact ⟨rfl, rfl⟩
  | cons m ms ih =>
    have hm := updateValue_frags_bound e m (h m (List.mem_cons_self m ms))
    have ih2 := ih (k + 1) (fun x hx => h x (List.mem_cons_of_mem m hx))
    simp only [List.map_cons, sepFrags, hm, List.cons_append, List.nil_append, renderFrags,
      placeholderCount, assignmentTexts, sepText, ih2.1, ih2.2, List.length_cons,
      String.append_assoc, and_self]

theorem render_joinFrags_assign (e : Env) (ms : List updateValue)
    (h : ∀ m ∈ ms, m.col.acceptType e m.val = true ∧ m.val.placeholder = true) :
    renderFrags e.dialect 0 (joinFrags ", " (ms.map (updateValue.frags e))) =
        ", ".intercalate (assignmentTexts e.dialect 0 ms) ∧
      placeholderCount (joinFrags ", " (ms.map (updateValue.frags e))) = ms.length := by
  cases ms with
  | nil => exact ⟨rfl, rfl⟩
  | cons m ms =>
    have hm := updateValue_frags_bound e m (h m (List.mem_cons_self m ms))
    have h2 := render_sepFrags_assign e 1 ms (fun x hx => h x (List.mem_cons_of_mem m hx))
    have hc : ∀ fs : List Frag, placeholderCount
        (Frag.text (e.dialect.QuoteField m.col.name) :: Frag.text "=" ::
          Frag.bind m.val.raw :: fs) = placeholderCount fs + 1 := fun _ => rfl
    simp only [List.map_cons, joinFrags, hm, List.cons_append, List.nil_append, renderFrags,
      assignmentTexts, intercalate_cons_eq, h2.1, hc, h2.2, List.length_cons,
      String.append_assoc, and_self]

/-- C7: the setters of different clauses of an Update commute, so that the result of ToSql
depends on the final configuration only, and the text always has the shape
`UPDATE table SET assignments [WHERE condition] [ORDER BY items] [LIMIT p] [OFFSET p]`: the
assignments and the ordering items are joined by a comma (accepted assignments of bound values
read `col=placeholder`), the optional clauses come in this order and only when configured,
and each placeholder is the one of its position. -/
theorem update_emission_order (e : Env) (b : UpdateStatement) :
    (∀ c v w, (b.Set c v).Where w = (b.Where w).Set c v) ∧
    (∀ c v desc cols, (b.Set c v).OrderBy desc cols = (b.OrderBy desc cols).Set c v) ∧
    (∀ c v n, (b.Set c v).Limit n = (b.Limit n).Set c v) ∧
    (∀ c v n, (b.Set c v).Offset n = (b.Offset n).Set c v) ∧
    (∀ w desc cols, (b.Where w).OrderBy desc cols = (b.OrderBy desc cols).Where w) ∧
    (∀ w n, (b.Where w).Limit n = (b.Limit n).Where w) ∧
    (∀ w n, (b.Where w).Offset n = (b.Offset n).Where w) ∧
    (∀ desc cols n, (b.OrderBy desc cols).Limit n = (b.Limit n).OrderBy desc cols) ∧
    (∀ desc cols n, (b.OrderBy desc cols).Offset n = (b.Offset n).OrderBy desc cols) ∧
    (∀ n m, (b.Limit n).Offset m = (b.Offset m).Limit n) ∧
    ((∀ m ∈ b.set, m.col.acceptType e m.val = true ∧ m.val.placeholder = true) →
      renderFrags e.dialect 0 (joinFrags ", " (b.set.map (updateValue.frags e))) =
          ", ".intercalate (assignmentTexts e.dialect 0 b.set) ∧
        placeholderCount (b.setFrags e) = b.set.length) ∧
    (b.ToSql e).2.query =
      "UPDATE " ++
      (match b.table with
        | some t => e.dialect.QuoteField t.name
        | none => "") ++
      " SET " ++ renderFrags e.dialect 0 (joinFrags ", " (b.set.map (updateValue.frags e))) ++
      (match b.where_ with
        | some cond =>
          " WHERE " ++ renderFrags e.dialect (placeholderCount (b.setFrags e)) (cond.frags e)
        | none => "") ++
      (match b.orderBy with
        | some items => " ORDER BY " ++ ", ".intercalate (items.map (fun m =>
            e.dialect.QuoteField m.column.name ++ (if m.desc then " DESC" else " ASC")))
        | none => "") ++
      (if b.limit = 0 then ""
        else " LIMIT " ++ e.dialect.BindVar
          (placeholderCount (b.setFrags e) + placeholderCount (b.whereFrags e) + 1)) ++
      (if b.offset = 0 then ""
        else " OFFSET " ++ e.dialect.BindVar
          (placeholderCount (b.setFrags e) + placeholderCount (b.whereFrags e) +
            placeholderCount b.limitFrags + 1)) := by
  refine ⟨?_, ?_, ?_, ?_, ?_, ?_, ?_, ?_, ?_, ?_, ?_, ?_⟩
  · intros; rfl
  · intros; simp only [update_OrderBy_eq]; rfl
  · intros; rfl
  · intros; rfl
  · intros; simp only [update_OrderBy_eq]; rfl
  · intros; rfl
  · intros; rfl
  · intros; simp only [update_OrderBy_eq]; rfl
  · intros; simp only [update_OrderBy_eq]; rfl
  · intros; rfl
  · intro h
    exact render_joinFrags_assign e b.set h
  · rw [update_query, update_frags_render, (headFrags_plain e b).1, (orderFrags_plain e b _).1]
    have hw : renderFrags e.dialect (placeholderCount (b.setFrags e)) (b.whereFrags e) =
        (match b.where_ with
          | some cond =>
            " WHERE " ++ renderFrags e.dialect (placeholderCount (b.setFrags e)) (cond.frags e)
          | none => "") := by
      unfold UpdateStatement.whereFrags
      cases b.where_ <;> rfl
    have hl : ∀ k, renderFrags e.dialect k b.limitFrags =
        (if b.limit = 0 then "" else " LIMIT " ++ e.dialect.BindVar (k + 1)) := by
      intro k
      unfold UpdateStatement.limitFrags
      split <;> simp [renderFrags]
    have ho : ∀ k, renderFrags e.dialect k b.offsetFrags =
        (if b.offset = 0 then "" else " OFFSET " ++ e.dialect.BindVar (k + 1)) := by
      intro k
      unfold UpdateStatement.offsetFrags
      split <;> simp [renderFrags]
    rw [hw, hl, ho]
    rfl

/-! ## Update: arguments -/

theorem boundValues_sepFrags (sep : String) (xs : List (List Frag)) :
    boundValues (sepFrags sep xs) = (xs.map boundValues).flatten := by
  induction xs with
  | nil => rfl
  | cons x xs ih => simp [sepFrags, boundValues, boundValues_append, ih]

theorem boundValues_joinFrags (sep : String) (xs : List (List Frag)) :
    boundValues (joinFrags sep xs) = (xs.map boundValues).flatten := by
  cases xs with
  | nil => rfl
  | cons x xs => simp [joinFrags, boundValues_append, boundValues_sepFrags]

theorem firstFailure_sepFrags_mem (sep : String) (xs : List (List Frag))
    (h : firstFailure (sepFrags sep xs) = none) : ∀ x ∈ xs, firstFailure x = none := by
  induction xs with
  | nil => simp
  | cons x xs ih =>
    simp only [sepFrags, firstFailure, firstFailure_append] at h
    cases hx : firstFailure x with
    | some err => simp [hx] at h
    | none =>
      simp only [hx] at h
      intro y hy
      rcases List.mem_cons.mp hy with rfl | hy
      · exact hx
      · exact ih h y hy

theorem firstFailure_joinFrags_mem (sep : String) (xs : List (List Frag))
    (h : firstFailure (joinFrags sep xs) = none) : ∀ x ∈ xs, firstFailure x = none := by
  cases xs with
  | nil => simp
  | cons x xs =>
    simp only [joinFrags, firstFailure_append] at h
    cases hx : firstFailure x with
    | some err => simp [hx] at h
    | none =>
      simp only [hx] at h
      intro y hy
      rcases List.mem_cons.mp hy with rfl | hy
      · exact hx
      · exact firstFailure_sepFrags_mem sep xs h y hy

theorem literal_frags_bound (l : literalImpl) : boundValues l.frags = l.bound := by
  unfold literalImpl.frags literalImpl.bound
  split <;> rfl

theorem literal_frags_ok (l : literalImpl) : firstFailure l.frags = none := by
  unfold literalImpl.frags
  split <;> rfl

theorem condition_frags_bound (e : Env) (c : Condition) : boundValues (c.frags e) = c.args := by
  induction c with
  | compare left operator right =>
    simp [Condition.frags, Condition.args, Column.frags, boundValues, literal_frags_bound]
  | connect left connective right ihl ihr =>
    simp [Condition.frags, Condition.args, boundValues, boundValues_append, ihl, ihr]

theorem updateValue_frags_accepted (e : Env) (m : updateValue)
    (h : firstFailure (m.frags e) = none) :
    m.col.acceptType e m.val = true ∧ boundValues (m.frags e) = m.val.bound := by
  unfold updateValue.frags at h ⊢
  cases hacc : m.col.acceptType e m.val
  · simp [hacc, firstFailure] at h
  · simp [boundValues, literal_frags_bound]

theorem firstFailure_append_left (fs gs : List Frag) (h : firstFailure (fs ++ gs) = none) :
    firstFailure fs = none := by
  rw [firstFailure_append] at h
  cases hf : firstFailure fs with
  | none => rfl
  | some err => simp [hf] at h

/-- A successful Update has a table, at least one assignment, and accepts them all. -/
theorem update_ok_accepted (e : Env) (b : UpdateStatement)
    (hok : firstFailure (b.frags e) = none) :
    b.table ≠ none ∧ b.set ≠ [] ∧ ∀ m ∈ b.set, firstFailure (m.frags e) = none := by
  unfold UpdateStatement.frags at hok
  have hhead : firstFailure (b.headFrags e) = none :=
    firstFailure_append_left _ _ (firstFailure_append_left _ _
      (firstFailure_append_left _ _ (firstFailure_append_left _ _ hok)))
  unfold UpdateStatement.headFrags at hhead
  cases ht : b.table with
  | none => simp [ht, firstFailure] at hhead
  | some t =>
    cases hs : b.set with
    | nil => simp [ht, hs, firstFailure, firstFailure_append, Table.frags] at hhead
    | cons m ms =>
      refine ⟨by simp, by simp, ?_⟩
      rw [ht, hs] at hhead
      have hj : firstFailure (joinFrags ", " ((m :: ms).map (updateValue.frags e))) = none := by
        simpa [firstFailure, Table.frags] using hhead
      intro x hx
      exact firstFailure_joinFrags_mem ", " _ hj _ (List.mem_map_of_mem _ hx)

theorem update_set_fold (ps : List (Column × Raw)) (b : UpdateStatement) :
    ps.foldl (fun b p => b.Set p.1 p.2) b =
      UpdateStatement.mk b.table (b.set ++ ps.map (fun p => newUpdateValue p.1 p.2)) b.where_
        b.orderBy b.limit b.offset := by
  induction ps generalizing b with
  | nil => simp
  | cons p ps ih =>
    rw [List.foldl_cons, ih]
    simp [UpdateStatement.Set]

theorem setValues_bound (ps : List (Column × Raw)) :
    ((ps.map (fun p => newUpdateValue p.1 p.2)).map (fun m => m.val.bound)).flatten =
      ps.map Prod.snd := by
  induction ps with
  | nil => rfl
  | cons p ps ih =>
    rw [List.map_cons, List.map_cons, List.flatten_cons, ih]
    rfl

/-- The arguments of a successful Update, clause by clause, and the token sequence that the
text and the arguments come from. -/
theorem update_args_successful (e : Env) (b : UpdateStatement)
    (hok : (b.ToSql e).2.err = none) :
    (b.ToSql e).2.args =
        (b.set.map (fun m => m.val.bound)).flatten ++
        (match b.where_ with
          | some cond => cond.args
          | none => []) ++
        (if b.limit = 0 then [] else [Raw.int b.limit]) ++
        (if b.offset = 0 then [] else [Raw.int b.offset]) ∧
    ((∀ m ∈ b.set, m.val.placeholder = true) →
        (b.set.map (fun m => m.val.bound)).flatten = b.set.map (fun m => m.val.raw)) ∧
    (b.ToSql e).2.query = renderFrags e.dialect 0 (b.frags e) ∧
    (b.ToSql e).2.args = boundValues (b.frags e) ∧
    (b.ToSql e).2.args.length = placeholderCount (b.frags e) := by
  rw [update_err] at hok
  obtain ⟨-, -, hacc⟩ := update_ok_accepted e b hok
  refine ⟨?_, ?_, update_query e b, update_args e b, ?_⟩
  · rw [update_args]
    unfold UpdateStatement.frags
    simp only [boundValues_append, (headFrags_plain e b).2, (orderFrags_plain e b 0).2,
      List.append_nil]
    have hset : boundValues (b.setFrags e) = (b.set.map (fun m => m.val.bound)).flatten := by
      unfold UpdateStatement.setFrags
      rw [boundValues_joinFrags, List.map_map]
      congr 1
      apply List.map_congr_left
      intro m hm
      exact (updateValue_frags_accepted e m (hacc m hm)).2
    have hwhere : boundValues (b.whereFrags e) =
        (match b.where_ with
          | some cond => cond.args
          | none => []) := by
      unfold UpdateStatement.whereFrags
      cases b.where_ with
      | none => rfl
      | some cond => simp [boundValues, condition_frags_bound]
    have hlimit : boundValues b.limitFrags = (if b.limit = 0 then [] else [Raw.int b.limit]) := by
      unfold UpdateStatement.limitFrags
      split <;> rfl
    have hoffset : boundValues b.offsetFrags =
        (if b.offset = 0 then [] else [Raw.int b.offset]) := by
      unfold UpdateStatement.offsetFrags
      split <;> rfl
    rw [hset, hwhere, hlimit, hoffset]
  · intro hbound
    generalize b.set = ms at hbound
    induction ms with
    | nil => rfl
    | cons m ms ih =>
      have hm : m.val.bound = [m.val.raw] := by
        simp [literalImpl.bound, hbound m (List.mem_cons_self m ms)]
      rw [List.map_cons, List.flatten_cons, hm,
        ih (fun x hx => hbound x (List.mem_cons_of_mem m hx))]
      rfl
  · rw [update_args, boundValues_length]

/-- The text of a successful Update whose assignments all come from `Set` calls on a builder
without assignments: the i-th call is written `col=placeholder i`, and the placeholders of the
remaining clauses are numbered after those of the calls. -/
theorem update_set_calls_text (e : Env) (b : UpdateStatement) (ps : List (Column × Raw))
    (hset : b.set = [])
    (hok : ((ps.foldl (fun b p => b.Set p.1 p.2) b).ToSql e).2.err = none) :
    ((ps.foldl (fun b p => b.Set p.1 p.2) b).ToSql e).2.query =
      "UPDATE " ++
      (match b.table with
        | some t => e.dialect.QuoteField t.name
        | none => "") ++
      " SET " ++
      ", ".intercalate (assignmentTexts e.dialect 0 (ps.map (fun p => newUpdateValue p.1 p.2))) ++
      renderFrags e.dialect ps.length
        (b.whereFrags e ++ b.orderFrags e ++ b.limitFrags ++ b.offsetFrags) := by
  rw [update_set_fold, hset, List.nil_append] at hok ⊢
  rw [update_err] at hok
  obtain ⟨-, -, hacc⟩ := update_ok_accepted e _ hok
  have hall : ∀ m ∈ ps.map (fun p => newUpdateValue p.1 p.2),
      m.col.acceptType e m.val = true ∧ m.val.placeholder = true := by
    intro m hm
    refine ⟨(updateValue_frags_accepted e m (hacc m hm)).1, ?_⟩
    rw [List.mem_map] at hm
    obtain ⟨p, -, rfl⟩ := hm
    rfl
  have hj := render_joinFrags_assign e _ hall
  rw [List.length_map] at hj
  have hfr : (UpdateStatement.mk b.table (ps.map (fun p => newUpdateValue p.1 p.2)) b.where_
        b.orderBy b.limit b.offset).frags e =
      (UpdateStatement.mk b.table (ps.map (fun p => newUpdateValue p.1 p.2)) b.where_
        b.orderBy b.limit b.offset).headFrags e ++
      (b.whereFrags e ++ b.orderFrags e ++ b.limitFrags ++ b.offsetFrags) := by
    simp only [UpdateStatement.frags, UpdateStatement.whereFrags, UpdateStatement.orderFrags,
      UpdateStatement.limitFrags, UpdateStatement.offsetFrags, List.append_assoc]
  rw [update_query, hfr, renderFrags_append, (headFrags_plain e _).1, (headFrags_plain e _).2,
    boundValues_length]
  simp only [UpdateStatement.setFrags, hj.1, hj.2, Nat.zero_add]

/-- C8: `Set` appends its assignment to those already made and leaves the other clauses as
they are, so a builder keeps its assignments in call order. The arguments of a successful
Update are, in this order, the values of the assignments in call order (those the builder
already had, then the values of the `Set` calls, first call first), the arguments of the
condition, the limit when it is not zero and the offset when it is not zero. The text is the
rendering of the token sequence of the statement, whose placeholders, left to right, are
bound to exactly these arguments, one placeholder for each argument; when all assignments
come from the `Set` calls, the i-th call is written `col=placeholder i` and the placeholders
of the remaining clauses are numbered after those of the calls. -/
theorem update_args_order (e : Env) (b : UpdateStatement) (ps : List (Column × Raw))
    (hok : ((ps.foldl (fun b p => b.Set p.1 p.2) b).ToSql e).2.err = none) :
    (∀ c v, (b.Set c v).set = b.set ++ [newUpdateValue c v] ∧
      (b.Set c v).table = b.table ∧ (b.Set c v).where_ = b.where_ ∧
      (b.Set c v).orderBy = b.orderBy ∧ (b.Set c v).limit = b.limit ∧
      (b.Set c v).offset = b.offset) ∧
    (ps.foldl (fun b p => b.Set p.1 p.2) b).set =
      b.set ++ ps.map (fun p => newUpdateValue p.1 p.2) ∧
    ((ps.foldl (fun b p => b.Set p.1 p.2) b).ToSql e).2.args =
        (b.set.map (fun m => m.val.bound)).flatten ++
        ps.map Prod.snd ++
        (match b.where_ with
          | some cond => cond.args
          | none => []) ++
        (if b.limit = 0 then [] else [Raw.int b.limit]) ++
        (if b.offset = 0 then [] else [Raw.int b.offset]) ∧
    ((∀ m ∈ b.set, m.val.placeholder = true) →
      ((ps.foldl (fun b p => b.Set p.1 p.2) b).ToSql e).2.args =
        b.set.map (fun m => m.val.raw) ++
        ps.map Prod.snd ++
        (match b.where_ with
          | some cond => cond.args
          | none => []) ++
        (if b.limit = 0 then [] else [Raw.int b.limit]) ++
        (if b.offset = 0 then [] else [Raw.int b.offset])) ∧
    ((∀ m ∈ b.set, m.val.placeholder = true) →
        (b.set.map (fun m => m.val.bound)).flatten = b.set.map (fun m => m.val.raw)) ∧
    ((ps.foldl (fun b p => b.Set p.1 p.2) b).ToSql e).2.query =
      renderFrags e.dialect 0 ((ps.foldl (fun b p => b.Set p.1 p.2) b).frags e) ∧
    ((ps.foldl (fun b p => b.Set p.1 p.2) b).ToSql e).2.args =
      boundValues ((ps.foldl (fun b p => b.Set p.1 p.2) b).frags e) ∧
    ((ps.foldl (fun b p => b.Set p.1 p.2) b).ToSql e).2.args.length =
      placeholderCount ((ps.foldl (fun b p => b.Set p.1 p.2) b).frags e) ∧
    (b.set = [] →
      ((ps.foldl (fun b p => b.Set p.1 p.2) b).ToSql e).2.query =
        "UPDATE " ++
        (match b.table with
          | some t => e.dialect.QuoteField t.name
          | none => "") ++
        " SET " ++
        ", ".intercalate
          (assignmentTexts e.dialect 0 (ps.map (fun p => newUpdateValue p.1 p.2))) ++
        renderFrags e.dialect ps.length
          (b.whereFrags e ++ b.orderFrags e ++ b.limitFrags ++ b.offsetFrags)) := by
  have hs := update_args_successful e _ hok
  have hfold := update_set_fold ps b
  have hargs : ((ps.foldl (fun b p => b.Set p.1 p.2) b).ToSql e).2.args =
        (b.set.map (fun m => m.val.bound)).flatten ++
        ps.map Prod.snd ++
        (match b.where_ with
          | some cond => cond.args
          | none => []) ++
        (if b.limit = 0 then [] else [Raw.int b.limit]) ++
        (if b.offset = 0 then [] else [Raw.int b.offset]) := by
    rw [hs.1, hfold]
    simp only [List.map_append, List.flatten_append, setValues_bound]
  have hraw : (∀ m ∈ b.set, m.val.placeholder = true) →
      (b.set.map (fun m => m.val.bound)).flatten = b.set.map (fun m => m.val.raw) := by
    intro hbound
    generalize b.set = ms at hbound
    induction ms with
    | nil => rfl
    | cons m ms ih =>
      have hm : m.val.bound = [m.val.raw] := by
        simp [literalImpl.bound, hbound m (List.mem_cons_self m ms)]
      rw [List.map_cons, List.flatten_cons, hm,
        ih (fun x hx => hbound x (List.mem_cons_of_mem m hx))]
      rfl
  refine ⟨fun c v => ⟨rfl, rfl, rfl, rfl, rfl, rfl⟩, ?_, hargs, ?_, hraw, hs.2.2.1, hs.2.2.2.1,
    hs.2.2.2.2, fun hset => update_set_calls_text e b ps hset hok⟩
  · rw [hfold]
  · intro hbound
    rw [hargs, hraw hbound]

theorem update_args_order_witness :
    ((((unassignedUpdate.Set personName (Raw.string "a")).Set personId (Raw.int 7)).Set
      personBirth (Raw.time birthday)).ToSql numberedEnv).2.err = none ∧
    ((((unassignedUpdate.Set personName (Raw.string "a")).Set personId (Raw.int 7)).Set
      personBirth (Raw.time birthday)).ToSql numberedEnv).2.args =
      [Raw.string "a", Raw.int 7, Raw.time birthday, Raw.int 5, Raw.int (-3), Raw.int 2] ∧
    ((((unassignedUpdate.Set personName (Raw.string "a")).Set personId (Raw.int 7)).Set
      personBirth (Raw.time birthday)).ToSql numberedEnv).2.query =
      "UPDATE PERSON SET name=$1, id=$2, birth=$3 WHERE id=$4 LIMIT $5 OFFSET $6" ∧
    (((unassignedUpdate.Set personName (Raw.string "a")).Set personId (Raw.int 7)).Set
      personBirth (Raw.time birthday)).set =
      [newUpdateValue personName (Raw.string "a"), newUpdateValue personId (Raw.int 7),
        newUpdateValue personBirth (Raw.time birthday)] :=
  ⟨rfl,
    (update_args_order numberedEnv unassignedUpdate
      [(personName, Raw.string "a"), (personId, Raw.int 7), (personBirth, Raw.time birthday)]
      rfl).2.2.1,
    (update_args_order numberedEnv unassignedUpdate
      [(personName, Raw.string "a"), (personId, Raw.int 7), (personBirth, Raw.time birthday)]
      rfl).2.2.2.2.2.1.trans (by decide),
    (update_args_order numberedEnv unassignedUpdate
      [(personName, Raw.string "a"), (personId, Raw.int 7), (personBirth, Raw.time birthday)]
      rfl).2.1⟩

/-- The result of an Update in terms of the result of the same Update without limit and
offset: the two clauses add their text and their argument at the end, the limit first. -/
theorem update_limit_offset_split (e : Env) (b : UpdateStatement) :
    (b.ToSql e).2 =
      Result.mk
        ((((b.Limit 0).Offset 0).ToSql e).2.query ++
          (if b.limit = 0 then ""
            else " LIMIT " ++
              e.dialect.BindVar ((((b.Limit 0).Offset 0).ToSql e).2.args.length + 1)) ++
          (if b.offset = 0 then ""
            else " OFFSET " ++
              e.dialect.BindVar ((((b.Limit 0).Offset 0).ToSql e).2.args.length +
                (if b.limit = 0 then 0 else 1) + 1)))
        ((((b.Limit 0).Offset 0).ToSql e).2.args ++
          (if b.limit = 0 then [] else [Raw.int b.limit]) ++
          (if b.offset = 0 then [] else [Raw.int b.offset]))
        (((b.Limit 0).Offset 0).ToSql e).2.err := by
  have hfr : b.frags e = ((b.Limit 0).Offset 0).frags e ++ b.limitFrags ++ b.offsetFrags := by
    simp [UpdateStatement.frags, UpdateStatement.Limit, UpdateStatement.Offset,
      UpdateStatement.headFrags, UpdateStatement.whereFrags, UpdateStatement.orderFrags,
      UpdateStatement.limitFrags, UpdateStatement.offsetFrags]
  have hl : boundValues b.limitFrags = (if b.limit = 0 then [] else [Raw.int b.limit]) := by
    unfold UpdateStatement.limitFrags
    split <;> rfl
  have ho : boundValues b.offsetFrags = (if b.offset = 0 then [] else [Raw.int b.offset]) := by
    unfold UpdateStatement.offsetFrags
    split <;> rfl
  have hlr : ∀ k, renderFrags e.dialect k b.limitFrags =
      (if b.limit = 0 then "" else " LIMIT " ++ e.dialect.BindVar (k + 1)) := by
    intro k
    unfold UpdateStatement.limitFrags
    split <;> simp [renderFrags]
  have hor : ∀ k, renderFrags e.dialect k b.offsetFrags =
      (if b.offset = 0 then "" else " OFFSET " ++ e.dialect.BindVar (k + 1)) := by
    intro k
    unfold UpdateStatement.offsetFrags
    split <;> simp [renderFrags]
  have hlf : firstFailure b.limitFrags = none := by
    unfold UpdateStatement.limitFrags
    split <;> rfl
  have hof : firstFailure b.offsetFrags = none := by
    unfold UpdateStatement.offsetFrags
    split <;> rfl
  have hq := update_query e b
  have ha := update_args e b
  have he := update_err e b
  rw [hfr] at hq ha he
  rw [renderFrags_append, renderFrags_append, hlr, hor, boundValues_append, List.length_append,
    hl, ← update_query, ← update_args] at hq
  rw [boundValues_append, boundValues_append, hl, ho, ← update_args] at ha
  rw [firstFailure_append, firstFailure_append, hlf, hof, ← update_err] at he
  have he2 : (b.ToSql e).2.err = (((b.Limit 0).Offset 0).ToSql e).2.err := by
    rw [he]
    cases (((b.Limit 0).Offset 0).ToSql e).2.err <;> rfl
  have hq2 : (b.ToSql e).2.query = (((b.Limit 0).Offset 0).ToSql e).2.query ++
        (if b.limit = 0 then ""
          else " LIMIT " ++
            e.dialect.BindVar ((((b.Limit 0).Offset 0).ToSql e).2.args.length + 1)) ++
        (if b.offset = 0 then ""
          else " OFFSET " ++
            e.dialect.BindVar ((((b.Limit 0).Offset 0).ToSql e).2.args.length +
              (if b.limit = 0 then 0 else 1) + 1)) := by
    rw [hq]
    by_cases h0 : b.limit = 0 <;> simp [h0]
  cases hres : (b.ToSql e).2 with
  | mk q a er =>
    rw [hres] at he2 hq2 ha
    simp only at he2 hq2 ha
    rw [he2, hq2, ha]

/-- C9: `Limit(n)` stores `n` as the limit and `Offset(m)` stores `m` as the offset, whatever
their sign, and they change nothing else; a new builder has limit and offset zero and the
other setters keep them. A limit (an offset) of zero is the same as none: `Limit(0)` on a
builder whose limit was never set leaves the builder, hence the result of ToSql, as it is, and
a zero limit adds neither text nor argument to what the statement without limit and offset
gives. For every `n` other than zero, negative or not, the result of ToSql after `Limit(n)` is
the result without limit with ` LIMIT ` and one placeholder added to the text and `n` added as
one argument; likewise for `Offset(m)`, whose clause and argument come last. -/
theorem update_limit_offset (e : Env) (b : UpdateStatement) :
    (b.limit = 0 → b.Limit 0 = b) ∧
    (b.offset = 0 → b.Offset 0 = b) ∧
    (b.ToSql e).2 =
      Result.mk
        ((((b.Limit 0).Offset 0).ToSql e).2.query ++
          (if b.limit = 0 then ""
            else " LIMIT " ++
              e.dialect.BindVar ((((b.Limit 0).Offset 0).ToSql e).2.args.length + 1)) ++
          (if b.offset = 0 then ""
            else " OFFSET " ++
              e.dialect.BindVar ((((b.Limit 0).Offset 0).ToSql e).2.args.length +
                (if b.limit = 0 then 0 else 1) + 1)))
        ((((b.Limit 0).Offset 0).ToSql e).2.args ++
          (if b.limit = 0 then [] else [Raw.int b.limit]) ++
          (if b.offset = 0 then [] else [Raw.int b.offset]))
        (((b.Limit 0).Offset 0).ToSql e).2.err ∧
    (∀ n : Int, (b.Limit n).limit = n ∧ (b.Limit n).offset = b.offset ∧
      (b.Limit n).table = b.table ∧ (b.Limit n).set = b.set ∧
      (b.Limit n).where_ = b.where_ ∧ (b.Limit n).orderBy = b.orderBy) ∧
    (∀ m : Int, (b.Offset m).offset = m ∧ (b.Offset m).limit = b.limit ∧
      (b.Offset m).table = b.table ∧ (b.Offset m).set = b.set ∧
      (b.Offset m).where_ = b.where_ ∧ (b.Offset m).orderBy = b.orderBy) ∧
    ((∀ t, (Update t).limit = 0 ∧ (Update t).offset = 0) ∧
      (∀ c v, (b.Set c v).limit = b.limit ∧ (b.Set c v).offset = b.offset) ∧
      (∀ w, (b.Where w).limit = b.limit ∧ (b.Where w).offset = b.offset) ∧
      (∀ desc cols, (b.OrderBy desc cols).limit = b.limit ∧
        (b.OrderBy desc cols).offset = b.offset)) ∧
    (b.limit = 0 → (b.Limit 0).ToSql e = b.ToSql e) ∧
    (b.offset = 0 → (b.Offset 0).ToSql e = b.ToSql e) ∧
    (∀ n m : Int, (((b.Limit n).Offset m).ToSql e).2 =
      Result.mk
        ((((b.Limit 0).Offset 0).ToSql e).2.query ++
          (if n = 0 then ""
            else " LIMIT " ++
              e.dialect.BindVar ((((b.Limit 0).Offset 0).ToSql e).2.args.length + 1)) ++
          (if m = 0 then ""
            else " OFFSET " ++
              e.dialect.BindVar ((((b.Limit 0).Offset 0).ToSql e).2.args.length +
                (if n = 0 then 0 else 1) + 1)))
        ((((b.Limit 0).Offset 0).ToSql e).2.args ++
          (if n = 0 then [] else [Raw.int n]) ++
          (if m = 0 then [] else [Raw.int m]))
        (((b.Limit 0).Offset 0).ToSql e).2.err) ∧
    (∀ n m : Int, ((b.Offset m).Limit n).ToSql e = ((b.Limit n).Offset m).ToSql e) ∧
    (∀ n : Int, n ≠ 0 →
      (b.offset = 0 →
        ((b.Limit n).ToSql e).2.query =
          ((b.Limit 0).ToSql e).2.query ++ " LIMIT " ++
            e.dialect.BindVar (((b.Limit 0).ToSql e).2.args.length + 1) ∧
        ((b.Limit n).ToSql e).2.args = ((b.Limit 0).ToSql e).2.args ++ [Raw.int n]) ∧
      ((b.Limit n).ToSql e).2.args.length = ((b.Limit 0).ToSql e).2.args.length + 1 ∧
      ((b.Limit n).ToSql e).2.err = ((b.Limit 0).ToSql e).2.err) ∧
    (∀ m : Int, m ≠ 0 →
      ((b.Offset m).ToSql e).2.query =
        ((b.Offset 0).ToSql e).2.query ++ " OFFSET " ++
          e.dialect.BindVar (((b.Offset 0).ToSql e).2.args.length + 1) ∧
      ((b.Offset m).ToSql e).2.args = ((b.Offset 0).ToSql e).2.args ++ [Raw.int m] ∧
      ((b.Offset m).ToSql e).2.err = ((b.Offset 0).ToSql e).2.err) := by
  have hl0 : b.limit = 0 → b.Limit 0 = b := by
    intro h
    obtain ⟨t, st, w, o, l, f⟩ := b
    simp only at h
    simp [UpdateStatement.Limit, h]
  have ho0 : b.offset = 0 → b.Offset 0 = b := by
    intro h
    obtain ⟨t, st, w, o, l, f⟩ := b
    simp only at h
    simp [UpdateStatement.Offset, h]
  refine ⟨hl0, ho0, update_limit_offset_split e b, fun n => ⟨rfl, rfl, rfl, rfl, rfl, rfl⟩,
    fun m => ⟨rfl, rfl, rfl, rfl, rfl, rfl⟩,
    ⟨fun t => ⟨rfl, rfl⟩, fun c v => ⟨rfl, rfl⟩, fun w => ⟨rfl, rfl⟩, ?_⟩,
    fun h => by rw [hl0 h], fun h => by rw [ho0 h],
    fun n m => update_limit_offset_split e ((b.Limit n).Offset m), fun n m => rfl, ?_, ?_⟩
  · intro desc cols
    rw [update_OrderBy_eq]
    exact ⟨rfl, rfl⟩
  · intro n hn
    have h1 := update_limit_offset_split e (b.Limit n)
    have h0 := update_limit_offset_split e (b.Limit 0)
    have e1 : ((b.Limit n).Limit 0).Offset 0 = (b.Limit 0).Offset 0 := rfl
    have e0 : ((b.Limit 0).Limit 0).Offset 0 = (b.Limit 0).Offset 0 := rfl
    have l1 : (b.Limit n).limit = n := rfl
    have l0 : (b.Limit 0).limit = 0 := rfl
    have o1 : (b.Limit n).offset = b.offset := rfl
    have o0 : (b.Limit 0).offset = b.offset := rfl
    rw [e1, l1, o1] at h1
    rw [e0, l0, o0] at h0
    rw [h1, h0]
    by_cases hoff : b.offset = 0 <;> simp [hn, hoff, String.append_assoc]
  · intro m hm
    have h1 := update_limit_offset_split e (b.Offset m)
    have h0 := update_limit_offset_split e (b.Offset 0)
    have e1 : ((b.Offset m).Limit 0).Offset 0 = (b.Limit 0).Offset 0 := rfl
    have e0 : ((b.Offset 0).Limit 0).Offset 0 = (b.Limit 0).Offset 0 := rfl
    have l1 : (b.Offset m).offset = m := rfl
    have l0 : (b.Offset 0).offset = 0 := rfl
    have o1 : (b.Offset m).limit = b.limit := rfl
    have o0 : (b.Offset 0).limit = b.limit := rfl
    rw [e1, l1, o1] at h1
    rw [e0, l0, o0] at h0
    rw [h1, h0]
    by_cases hlim : b.limit = 0 <;> simp [hm, hlim, String.append_assoc]

theorem update_limit_offset_witness :
    (exampleUpdate.ToSql exampleEnv).2 =
      Result.mk "UPDATE PERSON SET name=? WHERE id=? LIMIT ? OFFSET ?"
        [Raw.string "a", Raw.int 5, Raw.int (-3), Raw.int 2] none ∧
    ((exampleUpdate.Limit 0).ToSql exampleEnv).2 =
      Result.mk "UPDATE PERSON SET name=? WHERE id=? OFFSET ?"
        [Raw.string "a", Raw.int 5, Raw.int 2] none ∧
    ((((Update (some PERSON)).Set personName (Raw.string "a")).Limit 10).ToSql numberedEnv).2 =
      Result.mk "UPDATE PERSON SET name=$1 LIMIT $2" [Raw.string "a", Raw.int 10] none ∧
    (((((Update (some PERSON)).Set personName (Raw.string "a")).Limit 10).Offset
        (-4)).ToSql numberedEnv).2 =
      Result.mk "UPDATE PERSON SET name=$1 LIMIT $2 OFFSET $3"
        [Raw.string "a", Raw.int 10, Raw.int (-4)] none ∧
    ((((Update (some PERSON)).Set personName (Raw.string "a")).Limit 0).ToSql numberedEnv).2 =
      Result.mk "UPDATE PERSON SET name=$1" [Raw.string "a"] none ∧
    (((Update (some PERSON)).Set personName (Raw.string "a")).Limit 0).ToSql numberedEnv =
      ((Update (some PERSON)).Set personName (Raw.string "a")).ToSql numberedEnv ∧
    (((Update (some PERSON)).Set personName (Raw.string "a")).Limit 10).limit = 10 :=
  ⟨(update_limit_offset exampleEnv exampleUpdate).2.2.1,
    (update_limit_offset exampleEnv (exampleUpdate.Limit 0)).2.2.1,
    ((update_limit_offset numberedEnv
      ((Update (some PERSON)).Set personName (Raw.string "a"))).2.2.2.2.2.2.2.2.1 10 0).trans
      (by decide),
    ((update_limit_offset numberedEnv
      ((Update (some PERSON)).Set personName (Raw.string "a"))).2.2.2.2.2.2.2.2.1 10 (-4)).trans
      (by decide),
    ((update_limit_offset numberedEnv
      ((Update (some PERSON)).Set personName (Raw.string "a"))).2.2.2.2.2.2.2.2.1 0 0).trans
      (by decide),
    (update_limit_offset numberedEnv
      ((Update (some PERSON)).Set personName (Raw.string "a"))).2.2.2.2.2.2.1 rfl,
    ((update_limit_offset numberedEnv
      ((Update (some PERSON)).Set personName (Raw.string "a"))).2.2.2.1 10).1⟩

theorem update_emission_order_witness :
    ((((Update (some PERSON)).Offset 2).Limit (-3)).Where
        (some (Condition.compare personId "=" (toLiteral (Raw.int 5))))).Set personName
        (Raw.string "a") = exampleUpdate ∧
    (exampleUpdate.ToSql exampleEnv).2.query =
      "UPDATE PERSON SET name=? WHERE id=? LIMIT ? OFFSET ?" ∧
    (((exampleUpdate.OrderBy true [personId]).OrderBy false [personName]).ToSql
        exampleEnv).2.query =
      "UPDATE PERSON SET name=? WHERE id=? ORDER BY id DESC, name ASC LIMIT ? OFFSET ?" :=
  ⟨rfl, (update_emission_order exampleEnv exampleUpdate).2.2.2.2.2.2.2.2.2.2.2,
    (update_emission_order exampleEnv
      ((exampleUpdate.OrderBy true [personId]).OrderBy false [personName])).2.2.2.2.2.2.2.2.2.2.2⟩

/-! ## Insert: setters, frame and repeated serialization -/

/-- C15: `Columns` and `Values` overwrite.  On every builder, whatever was configured before,
`Columns(cs...)` leaves exactly `cs` as the stored column list and does not touch the values
or the table, and `Values(vs...)` leaves exactly the bound literals of `vs`, in order, as the
value list and does not touch the columns or the table; so a second call of either replaces
the first. -/
theorem insert_columns_values_overwrite (b : InsertStatement) :
    (∀ cs : List Column, (b.Columns cs).columns = cs ∧ (b.Columns cs).values = b.values ∧
      (b.Columns cs).into = b.into) ∧
    (∀ vs : List Raw, (b.Values vs).values = vs.map toLiteral ∧
      (b.Values vs).columns = b.columns ∧ (b.Values vs).into = b.into) ∧
    (∀ xs ys : List Column, (b.Columns xs).Columns ys = b.Columns ys) ∧
    (∀ xs ys : List Raw, (b.Values xs).Values ys = b.Values ys) ∧
    (∀ (c : Column) (v : Raw) (cs : List Column), ((b.Set c v).Columns cs).columns = cs) ∧
    (∀ (c : Column) (v : Raw) (vs : List Raw),
      ((b.Set c v).Values vs).values = vs.map toLiteral) :=
  ⟨fun _ => ⟨rfl, rfl, rfl⟩, fun _ => ⟨rfl, rfl, rfl⟩, fun _ _ => rfl, fun _ _ => rfl,
    fun _ _ _ => rfl, fun _ _ _ => rfl⟩

/-- C13: serialization is read-only on the builder except for the column default of Insert.
An Insert with a table present and an empty stored column list holds the full column list of
the table after `ToSql`, its values and table unchanged; every other Insert (nil table, or a
stored column list that is not empty) and every Update is left as it was, field by field. -/
theorem tosql_frame (e : Env) :
    (∀ (b : InsertStatement) (t : Table), b.into = some t → b.columns = [] →
      (b.ToSql e).1.columns = t.Columns ∧ (b.ToSql e).1.values = b.values ∧
        (b.ToSql e).1.into = b.into) ∧
    (∀ b : InsertStatement, (b.into = none ∨ b.columns ≠ []) → (b.ToSql e).1 = b) ∧
    (∀ u : UpdateStatement, (u.ToSql e).1 = u) := by
  refine ⟨?_, ?_, ?_⟩
  · intro b t hinto hcols
    rw [insert_ToSql_some e b t hinto]
    simp [InsertStatement.effectiveColumns, hcols, Table.Columns]
  · intro b h
    cases hinto : b.into with
    | none => rw [insert_ToSql_none e b hinto]
    | some t =>
      have hne : b.columns ≠ [] := by
        rcases h with h | h
        · rw [hinto] at h
          cases h
        · exact h
      rw [insert_ToSql_some e b t hinto]
      simp [InsertStatement.effectiveColumns, hne]
  · intro u
    rw [update_ToSql_eq]

theorem tosql_frame_witness :
    ((((Insert (some PERSON)).Values [Raw.int 1]).ToSql exampleEnv).1 =
      InsertStatement.mk [personId, personName, personBirth] [toLiteral (Raw.int 1)]
        (some PERSON)) ∧
    (exampleUpdate.ToSql exampleEnv).1 = exampleUpdate :=
  ⟨by
    have h := (tosql_frame exampleEnv).1 ((Insert (some PERSON)).Values [Raw.int 1]) PERSON
      rfl rfl
    cases hb : ((Insert (some PERSON)).Values [Raw.int 1]).ToSql exampleEnv with
    | mk b1 r =>
      rw [hb] at h
      obtain ⟨bc, bv, bi⟩ := b1
      obtain ⟨h1, h2, h3⟩ := h
      simp only at h1 h2 h3
      subst h1 h2 h3
      rfl,
    (tosql_frame exampleEnv).2.2 exampleUpdate⟩

theorem effectiveColumns_stable (b : InsertStatement) (t : Table) :
    InsertStatement.effectiveColumns
      (InsertStatement.mk (b.effectiveColumns t) b.values b.into) t = b.effectiveColumns t := by
  unfold InsertStatement.effectiveColumns
  by_cases h : b.columns = []
  · simp [h]
  · simp [h]

/-- C19: the result of Insert serialization is idempotent.  A second `ToSql`, with no setter
call in between, returns the same `(query, args, error)` triple as the first and leaves the
builder as the first left it, also when the first call assigned the column default. -/
theorem insert_tosql_idempotent (e : Env) (b : InsertStatement) :
    ((b.ToSql e).1.ToSql e).2 = (b.ToSql e).2 ∧ ((b.ToSql e).1.ToSql e).1 = (b.ToSql e).1 := by
  cases hinto : b.into with
  | none =>
    rw [insert_ToSql_none e b hinto]
    simp only
    rw [insert_ToSql_none e b hinto]
    exact ⟨rfl, rfl⟩
  | some t =>
    rw [insert_ToSql_some e b t hinto]
    simp only
    rw [insert_ToSql_some e (InsertStatement.mk (b.effectiveColumns t) b.values b.into) t hinto]
    simp only
    rw [effectiveColumns_stable]
    exact ⟨rfl, rfl⟩

theorem insert_tosql_idempotent_witness :
    (((Insert (some PERSON)).Values [Raw.int 1, Raw.string "x", Raw.time birthday]).ToSql
        exampleEnv).1.columns = [personId, personName, personBirth] ∧
    (((((Insert (some PERSON)).Values [Raw.int 1, Raw.string "x", Raw.time birthday]).ToSql
        exampleEnv).1).ToSql exampleEnv).2 =
      Result.mk "INSERT INTO PERSON ( id, name, birth ) VALUES ( ?, ?, ? )"
        [Raw.int 1, Raw.string "x", Raw.time birthday] none :=
  ⟨rfl, (insert_tosql_idempotent exampleEnv
    ((Insert (some PERSON)).Values [Raw.int 1, Raw.string "x", Raw.time birthday])).1.trans rfl⟩

/-! ## Decimal digits -/

theorem toDigitsCore_decimal (fuel n : Nat) (ds : List Char) (h : n < fuel) :
    Nat.toDigitsCore 10 fuel n ds = (decimal n).data ++ ds := by
  induction fuel generalizing n ds with
  | zero => omega
  | succ fuel ih =>
    unfold Nat.toDigitsCore
    by_cases h0 : n / 10 = 0
    · simp only [h0, if_true]
      have hlt : n < 10 := by omega
      by_cases hn : n = 0
      · subst hn
        rfl
      · have hd : Nat.digits 10 n = [n] := Nat.digits_of_lt 10 n hn hlt
        simp [decimal, hn, hd, Nat.mod_eq_of_lt hlt]
    · simp only [h0, if_false]
      have hn : n ≠ 0 := by omega
      have hn2 : n / 10 < fuel := by omega
      rw [ih (n / 10) _ hn2]
      have hd : Nat.digits 10 n = (n % 10) :: Nat.digits 10 (n / 10) :=
        Nat.digits_def' (by norm_num) (Nat.pos_of_ne_zero hn)
      simp [decimal, hn, h0, hd]

/-- The text that `Nat.repr` gives is the base-10 digit sequence of the number. -/
theorem repr_eq_decimal (n : Nat) : Nat.repr n = decimal n := by
  unfold Nat.repr Nat.toDigits
  rw [toDigitsCore_decimal _ _ _ (Nat.lt_succ_self n)]
  simp [List.asString]

theorem digitChar_ne_c (d : Nat) (h : d < 10) : Nat.digitChar d ≠ 'c' := by
  interval_cases d <;> decide

theorem repr_no_c (n : Nat) : 'c' ∉ (Nat.repr n).data := by
  rw [repr_eq_decimal]
  unfold decimal
  by_cases hn : n = 0
  · simp [hn]
  · simp only [hn, if_false, List.mem_map, List.mem_reverse, not_exists, not_and]
    intro d hd
    exact digitChar_ne_c d (Nat.digits_lt_base (by norm_num) hd)

/-! ## The two validation errors of Insert are different errors -/

theorem newError_inj (a b : String) (h : newError a = newError b) : a = b := by
  unfold newError at h
  have h1 : ("sqlbuilder: " ++ a).data = ("sqlbuilder: " ++ b).data :=
    congrArg String.data (Error.mk.inj h)
  rw [String.data_append, String.data_append] at h1
  exact String.ext (List.append_cancel_left h1)

theorem notAcceptError_ne_countError (e : Env) (c : Column) (v : literalImpl) (n m : Nat) :
    notAcceptError e c v ≠ countError n m := by
  intro h
  have h1 := congrArg String.data (newError_inj _ _ h)
  have hc : 'c' ∈ (e.typeString c.typ ++ " column not accept " ++ v.Raw.typeName).data := by
    simp only [String.data_append, List.mem_append]
    exact Or.inl (Or.inr (by decide))
  rw [h1] at hc
  simp only [String.data_append, List.mem_append] at hc
  rcases hc with (hc | hc) | hc
  · exact repr_no_c n hc
  · revert hc
    decide
  · exact repr_no_c m hc

theorem checkTypes_some (e : Env) (cs : List Column) (vs : List literalImpl) (err : Error)
    (h : InsertStatement.checkTypes e cs vs = some err) :
    ∃ c v, err = notAcceptError e c v := by
  induction cs generalizing vs with
  | nil => simp [InsertStatement.checkTypes] at h
  | cons c cs ih =>
    cases vs with
    | nil => simp [InsertStatement.checkTypes] at h
    | cons v vs =>
      unfold InsertStatement.checkTypes at h
      split at h
      · exact ⟨c, v, (Option.some.inj h).symm⟩
      · exact ih vs h

/-- C20: on an Insert built from `Insert(table)` by Set calls only, the stored column list
and value list have the same length, and the i-th column and value are the column and the
bound literal of the value of the i-th Set call; so with a table present and at least one Set
call, ToSql passes the count check: its error is the outcome of the type check, never the
count-mismatch error. -/
theorem insert_set_invariant (into : Option Table) (ps : List (Column × Raw)) :
    (ps.foldl (fun b p => b.Set p.1 p.2) (Insert into)).columns.length =
      (ps.foldl (fun b p => b.Set p.1 p.2) (Insert into)).values.length ∧
    (ps.foldl (fun b p => b.Set p.1 p.2) (Insert into)).columns = ps.map Prod.fst ∧
    (ps.foldl (fun b p => b.Set p.1 p.2) (Insert into)).values =
      ps.map (fun p => toLiteral p.2) ∧
    (∀ (i : Nat) (p : Column × Raw), ps[i]? = some p →
      (ps.foldl (fun b p => b.Set p.1 p.2) (Insert into)).columns[i]? = some p.1 ∧
      (ps.foldl (fun b p => b.Set p.1 p.2) (Insert into)).values[i]? = some (toLiteral p.2)) ∧
    (∀ (e : Env) (t : Table), into = some t → ps ≠ [] →
      ((ps.foldl (fun b p => b.Set p.1 p.2) (Insert into)).ToSql e).2.err =
        InsertStatement.checkTypes e (ps.map Prod.fst) (ps.map (fun p => toLiteral p.2)) ∧
      ∀ n m : Nat,
        ((ps.foldl (fun b p => b.Set p.1 p.2) (Insert into)).ToSql e).2.err ≠
          some (newError (Nat.repr n ++ " values needed, but got " ++ Nat.repr m))) := by
  have hcols : (ps.foldl (fun b p => b.Set p.1 p.2) (Insert into)).columns = ps.map Prod.fst := by
    rw [insert_set_fold]
    rfl
  have hvals : (ps.foldl (fun b p => b.Set p.1 p.2) (Insert into)).values =
      ps.map (fun p => toLiteral p.2) := by
    rw [insert_set_fold]
    simp [Insert, List.map_map, Function.comp]
  have hinto : (ps.foldl (fun b p => b.Set p.1 p.2) (Insert into)).into = into := by
    rw [insert_set_fold]
    rfl
  refine ⟨by rw [hcols, hvals]; simp, hcols, hvals, ?_, ?_⟩
  · intro i p hp
    rw [hcols, hvals, List.getElem?_map, List.getElem?_map, hp]
    exact ⟨rfl, rfl⟩
  · intro e t ht hne
    have herr : ((ps.foldl (fun b p => b.Set p.1 p.2) (Insert into)).ToSql e).2.err =
        InsertStatement.checkTypes e (ps.map Prod.fst) (ps.map (fun p => toLiteral p.2)) := by
      rw [insert_ToSql_err e _ t (hinto.trans ht)]
      have heff : InsertStatement.effectiveColumns
          (ps.foldl (fun b p => b.Set p.1 p.2) (Insert into)) t = ps.map Prod.fst := by
        unfold InsertStatement.effectiveColumns
        rw [hcols]
        simp [hne]
      rw [heff, hvals]
      simp
    refine ⟨herr, ?_⟩
    intro n m h
    rw [herr] at h
    obtain ⟨c, v, hcv⟩ := checkTypes_some e _ _ _ h
    exact notAcceptError_ne_countError e c v n m hcv.symm

theorem insert_set_invariant_witness :
    ((((Insert (some PERSON)).Set personName (Raw.int 3)).Set personBirth
        (Raw.time birthday)).ToSql exampleEnv).2.err =
      some (Error.mk "sqlbuilder: string column not accept int") ∧
    ((((Insert (some PERSON)).Set personName (Raw.int 3)).Set personBirth
        (Raw.time birthday)).ToSql exampleEnv).2.err ≠
      some (Error.mk "sqlbuilder: 2 values needed, but got 2") :=
  ⟨((insert_set_invariant (some PERSON)
      [(personName, Raw.int 3), (personBirth, Raw.time birthday)]).2.2.2.2
      exampleEnv PERSON rfl (by decide)).1.trans rfl,
    ((insert_set_invariant (some PERSON)
      [(personName, Raw.int 3), (personBirth, Raw.time birthday)]).2.2.2.2
      exampleEnv PERSON rfl (by decide)).2 2 2⟩

/-! ## The dialect only changes text -/

theorem boundValues_stripText (fs : List Frag) : boundValues (stripText fs) = boundValues fs := by
  induction fs with
  | nil => rfl
  | cons f fs ih => cases f <;> simp [stripText, boundValues, ih]

theorem firstFailure_stripText (fs : List Frag) :
    firstFailure (stripText fs) = firstFailure fs := by
  induction fs with
  | nil => rfl
  | cons f fs ih => cases f <;> simp [stripText, firstFailure, ih]

theorem stripText_append (fs gs : List Frag) :
    stripText (fs ++ gs) = stripText fs ++ stripText gs := by
  induction fs with
  | nil => rfl
  | cons f fs ih => cases f <;> simp [stripText, ih]

theorem stripText_sepFrags (sep : String) (xs : List (List Frag)) :
    stripText (sepFrags sep xs) = (xs.map stripText).flatten := by
  induction xs with
  | nil => rfl
  | cons x xs ih => simp [sepFrags, stripText, stripText_append, ih]

theorem stripText_joinFrags (sep : String) (xs : List (List Frag)) :
    stripText (joinFrags sep xs) = (xs.map stripText).flatten := by
  cases xs with
  | nil => rfl
  | cons x xs => simp [joinFrags, stripText_append, stripText_sepFrags]

theorem stripText_updateValue (e : Env) (d : Dialect) (m : updateValue) :
    stripText (m.frags (e.withDialect d)) = stripText (m.frags e) := by
  unfold updateValue.frags
  have ha : m.col.acceptType (e.withDialect d) m.val = m.col.acceptType e m.val := rfl
  rw [ha]
  cases m.col.acceptType e m.val
  · rfl
  · simp [stripText]

theorem stripText_condition (e : Env) (d : Dialect) (c : Condition) :
    stripText (c.frags (e.withDialect d)) = stripText (c.frags e) := by
  induction c with
  | compare left operator right =>
    simp [Condition.frags, Column.frags, stripText]
  | connect left connective right ihl ihr =>
    simp [Condition.frags, stripText_append, stripText, ihl, ihr]

theorem stripText_update (e : Env) (d : Dialect) (b : UpdateStatement) :
    stripText (b.frags (e.withDialect d)) = stripText (b.frags e) := by
  have hset : stripText (joinFrags ", " (b.set.map (updateValue.frags (e.withDialect d)))) =
      stripText (joinFrags ", " (b.set.map (updateValue.frags e))) := by
    rw [stripText_joinFrags, stripText_joinFrags, List.map_map, List.map_map]
    congr 1
    apply List.map_congr_left
    intro m _
    exact stripText_updateValue e d m
  have hhead : stripText (b.headFrags (e.withDialect d)) = stripText (b.headFrags e) := by
    unfold UpdateStatement.headFrags
    cases b.table <;> cases hs : b.set <;>
      simp only [stripText, stripText_append, Table.frags, List.cons_append, List.nil_append,
        if_true, reduceCtorEq, if_false]
    all_goals
      rw [hs] at hset
      first
        | exact hset
        | exact congrArg _ hset
  have hwhere : stripText (b.whereFrags (e.withDialect d)) = stripText (b.whereFrags e) := by
    unfold UpdateStatement.whereFrags
    cases b.where_ with
    | none => rfl
    | some c => simp [stripText, stripText_condition]
  have horder : stripText (b.orderFrags (e.withDialect d)) = stripText (b.orderFrags e) := by
    unfold UpdateStatement.orderFrags
    cases b.orderBy with
    | none => rfl
    | some items =>
      simp only [stripText, stripText_joinFrags, List.map_map]
      congr 1
  unfold UpdateStatement.frags
  simp only [stripText_append, hhead, hwhere, horder]

theorem checkTypes_withDialect (e : Env) (d : Dialect) (cs : List Column)
    (vs : List literalImpl) :
    InsertStatement.checkTypes (e.withDialect d) cs vs = InsertStatement.checkTypes e cs vs := by
  induction cs generalizing vs with
  | nil => rfl
  | cons c cs ih =>
    cases vs with
    | nil => rfl
    | cons v vs =>
      unfold InsertStatement.checkTypes
      rw [ih]
      rfl

/-- The arguments that `InsertStatement.ToSql` returns: none when a check fails, the bound
values otherwise. -/
theorem insertEmit_args (e : Env) (t : Table) (cs : List Column) (vals : List literalImpl) :
    (insertEmit e t cs vals).args =
      if cs.length ≠ vals.length then []
      else
        match InsertStatement.checkTypes e cs vals with
        | some _ => []
        | none => (vals.map literalImpl.bound).flatten := by
  have hcols : boundValues (joinFrags ", " (cs.map (Column.frags e))) = [] := by
    rw [boundValues_joinFrags, List.map_map]
    simp [Function.comp, Column.frags, boundValues]
  have hvals : boundValues (joinFrags ", " (vals.map literalImpl.frags)) =
      (vals.map literalImpl.bound).flatten := by
    rw [boundValues_joinFrags, List.map_map]
    congr 1
    apply List.map_congr_left
    intro l _
    exact literal_frags_bound l
  unfold insertEmit
  by_cases hlen : cs.length = vals.length
  · simp only [hlen, ne_eq, not_true_eq_false, if_false]
    cases hchk : InsertStatement.checkTypes e cs vals <;>
      simp [builder.result, builder.Args, builder.AppendItem, ColumnList.serialize,
        table_serialize_eq, appendItems_eq e _ _ (column_serialize_eq e),
        appendItems_eq e _ _ (literal_serialize_eq e), emit_args, hcols, hvals, newBuilder,
        Table.frags, boundValues]
  · simp [hlen, builder.result, builder.Args, builder.AppendItem, ColumnList.serialize,
      table_serialize_eq, appendItems_eq e _ _ (column_serialize_eq e), emit_args, hcols,
      newBuilder, Table.frags, boundValues]

/-- C14: for every Insert and every Update configuration and every two dialects, serializing
under the one and under the other returns the same argument list and the same error; the
builder is left in the same state, and only the text can differ. -/
theorem dialect_independence (e : Env) (d1 d2 : Dialect) :
    (∀ b : InsertStatement,
      (b.ToSql (e.withDialect d1)).2.args = (b.ToSql (e.withDialect d2)).2.args ∧
      (b.ToSql (e.withDialect d1)).2.err = (b.ToSql (e.withDialect d2)).2.err ∧
      (b.ToSql (e.withDialect d1)).1 = (b.ToSql (e.withDialect d2)).1) ∧
    (∀ u : UpdateStatement,
      (u.ToSql (e.withDialect d1)).2.args = (u.ToSql (e.withDialect d2)).2.args ∧
      (u.ToSql (e.withDialect d1)).2.err = (u.ToSql (e.withDialect d2)).2.err ∧
      (u.ToSql (e.withDialect d1)).1 = (u.ToSql (e.withDialect d2)).1) := by
  constructor
  · intro b
    cases hinto : b.into with
    | none =>
      rw [insert_ToSql_none _ b hinto, insert_ToSql_none _ b hinto]
      exact ⟨rfl, rfl, rfl⟩
    | some t =>
      rw [insert_ToSql_some _ b t hinto, insert_ToSql_some _ b t hinto]
      refine ⟨?_, ?_, rfl⟩
      · simp only [insertEmit_args, checkTypes_withDialect]
      · simp only [insertEmit_err, checkTypes_withDialect]
  · intro u
    refine ⟨?_, ?_, ?_⟩
    · rw [update_args, update_args, ← boundValues_stripText, stripText_update,
        ← boundValues_stripText (u.frags (e.withDialect d2)), stripText_update]
    · rw [update_err, update_err, ← firstFailure_stripText, stripText_update,
        ← firstFailure_stripText (u.frags (e.withDialect d2)), stripText_update]
    · rw [update_ToSql_eq, update_ToSql_eq]

theorem dialect_independence_witness :
    (exampleUpdate.ToSql (exampleEnv.withDialect TestDialect)).2 =
      Result.mk "UPDATE \"PERSON\" SET \"name\"=? WHERE \"id\"=? LIMIT ? OFFSET ?"
        [Raw.string "a", Raw.int 5, Raw.int (-3), Raw.int 2] none ∧
    (exampleUpdate.ToSql (exampleEnv.withDialect plainDialect)).2 =
      Result.mk "UPDATE PERSON SET name=? WHERE id=? LIMIT ? OFFSET ?"
        [Raw.string "a", Raw.int 5, Raw.int (-3), Raw.int 2] none ∧
    (exampleUpdate.ToSql (exampleEnv.withDialect TestDialect)).2.args =
      (exampleUpdate.ToSql (exampleEnv.withDialect plainDialect)).2.args :=
  ⟨rfl, rfl, ((dialect_independence exampleEnv TestDialect plainDialect).2 exampleUpdate).1⟩

/-! ## Update: errors do not stop the emission -/

theorem updateValue_frags_boundValues (e : Env) (m : updateValue) :
    boundValues (m.frags e) = m.bound e := by
  unfold updateValue.frags updateValue.bound
  cases m.col.acceptType e m.val
  · rfl
  · simp [boundValues, literal_frags_bound]

/-- The arguments that `UpdateStatement.ToSql` returns, with or without an error. -/
theorem update_args_general (e : Env) (b : UpdateStatement) :
    (b.ToSql e).2.args =
      (b.set.map (updateValue.bound e)).flatten ++
      (match b.where_ with
        | some cond => cond.args
        | none => []) ++
      (if b.limit = 0 then [] else [Raw.int b.limit]) ++
      (if b.offset = 0 then [] else [Raw.int b.offset]) := by
  rw [update_args]
  unfold UpdateStatement.frags
  simp only [boundValues_append, (headFrags_plain e b).2, (orderFrags_plain e b 0).2,
    List.append_nil]
  have hset : boundValues (b.setFrags e) = (b.set.map (updateValue.bound e)).flatten := by
    unfold UpdateStatement.setFrags
    rw [boundValues_joinFrags, List.map_map]
    congr 1
    apply List.map_congr_left
    intro m _
    exact updateValue_frags_boundValues e m
  have hwhere : boundValues (b.whereFrags e) =
      (match b.where_ with
        | some cond => cond.args
        | none => []) := by
    unfold UpdateStatement.whereFrags
    cases b.where_ with
    | none => rfl
    | some cond => simp [boundValues, condition_frags_bound]
  have hlimit : boundValues b.limitFrags = (if b.limit = 0 then [] else [Raw.int b.limit]) := by
    unfold UpdateStatement.limitFrags
    split <;> rfl
  have hoffset : boundValues b.offsetFrags =
      (if b.offset = 0 then [] else [Raw.int b.offset]) := by
    unfold UpdateStatement.offsetFrags
    split <;> rfl
  rw [hset, hwhere, hlimit, hoffset]

/-- C16: an Update whose table is nil returns the error "table is nil", also when no Set was
made or an assignment is rejected, and the emission goes on after the error: the returned
text reads `UPDATE ` and ` SET ` followed by the remaining clauses, and the returned arguments
are those of the accepted assignments, of the condition, the limit and the offset. -/
theorem update_nil_table (e : Env) (b : UpdateStatement) (ht : b.table = none) :
    (b.ToSql e).2.err = some (newError "table is nil") ∧
    (b.ToSql e).2.query =
      "UPDATE " ++ " SET " ++ renderFrags e.dialect 0 (b.setFrags e) ++
      renderFrags e.dialect (placeholderCount (b.setFrags e)) (b.whereFrags e) ++
      renderFrags e.dialect (placeholderCount (b.setFrags e) + placeholderCount (b.whereFrags e))
        (b.orderFrags e) ++
      renderFrags e.dialect (placeholderCount (b.setFrags e) + placeholderCount (b.whereFrags e))
        b.limitFrags ++
      renderFrags e.dialect (placeholderCount (b.setFrags e) + placeholderCount (b.whereFrags e)
        + placeholderCount b.limitFrags) b.offsetFrags ∧
    (b.ToSql e).2.args =
      (b.set.map (updateValue.bound e)).flatten ++
      (match b.where_ with
        | some cond => cond.args
        | none => []) ++
      (if b.limit = 0 then [] else [Raw.int b.limit]) ++
      (if b.offset = 0 then [] else [Raw.int b.offset]) := by
  refine ⟨?_, ?_, update_args_general e b⟩
  · rw [update_err]
    simp [UpdateStatement.frags, UpdateStatement.headFrags, ht, firstFailure]
  · rw [update_query, update_frags_render, (headFrags_plain e b).1, ht]
    rfl

theorem update_nil_table_witness :
    nilTableUpdate.table = none ∧
    (nilTableUpdate.ToSql exampleEnv).2 =
      Result.mk "UPDATE  SET name=?,  LIMIT ? OFFSET ?"
        [Raw.string "a", Raw.int 3, Raw.int 4]
        (some (Error.mk "sqlbuilder: table is nil")) ∧
    (nilTableUpdate.ToSql exampleEnv).2.err = some (Error.mk "sqlbuilder: table is nil") ∧
    (nilTableUpdate.ToSql exampleEnv).2.args = [Raw.string "a", Raw.int 3, Raw.int 4] :=
  ⟨rfl, rfl, (update_nil_table exampleEnv nilTableUpdate rfl).1,
    (update_nil_table exampleEnv nilTableUpdate rfl).2.2⟩

theorem firstFailure_sepFrags_first (sep : String) (xs : List (List Frag)) (i : Nat)
    (x : List Frag) (err : Error) (hi : xs[i]? = some x) (hx : firstFailure x = some err)
    (hbefore : ∀ j, j < i → ∀ y, xs[j]? = some y → firstFailure y = none) :
    firstFailure (sepFrags sep xs) = some err := by
  induction xs generalizing i with
  | nil => simp at hi
  | cons x0 xs ih =>
    simp only [sepFrags, firstFailure, firstFailure_append]
    cases i with
    | zero =>
      simp at hi
      subst hi
      rw [hx]
    | succ i =>
      rw [hbefore 0 (Nat.succ_pos i) x0 (by simp)]
      simp only
      exact ih i (by simpa using hi)
        (fun j hj y hy => hbefore (j + 1) (Nat.succ_lt_succ hj) y (by simpa using hy))

theorem firstFailure_joinFrags_first (sep : String) (xs : List (List Frag)) (i : Nat)
    (x : List Frag) (err : Error) (hi : xs[i]? = some x) (hx : firstFailure x = some err)
    (hbefore : ∀ j, j < i → ∀ y, xs[j]? = some y → firstFailure y = none) :
    firstFailure (joinFrags sep xs) = some err := by
  cases xs with
  | nil => simp at hi
  | cons x0 xs =>
    simp only [joinFrags, firstFailure_append]
    cases i with
    | zero =>
      simp at hi
      subst hi
      rw [hx]
    | succ i =>
      rw [hbefore 0 (Nat.succ_pos i) x0 (by simp)]
      simp only
      exact firstFailure_sepFrags_first sep xs i x err (by simpa using hi) hx
        (fun j hj y hy => hbefore (j + 1) (Nat.succ_lt_succ hj) y (by simpa using hy))

theorem updateValue_frags_failure (e : Env) (m : updateValue) :
    firstFailure (m.frags e) =
      if m.col.acceptType e m.val then none else some (notAcceptError e m.col m.val) := by
  unfold updateValue.frags
  cases m.col.acceptType e m.val
  · rfl
  · simp [firstFailure, literal_frags_ok]

/-- C17: an Update with a table present in which some assignment is rejected returns the
type-mismatch error of the first rejected assignment in call order, naming the type of that
column and the type of that value; a rejected assignment writes no text and binds no
argument, so that the returned arguments are those of the accepted assignments and of the
later clauses. -/
theorem update_first_rejected (e : Env) (b : UpdateStatement) (t : Table)
    (ht : b.table = some t) (i : Nat) (m : updateValue)
    (hi : b.set[i]? = some m) (hrej : m.col.acceptType e m.val = false)
    (hbefore : ∀ j, j < i → ∀ m0 : updateValue, b.set[j]? = some m0 →
      m0.col.acceptType e m0.val = true) :
    (b.ToSql e).2.err ≠ none ∧
    (b.ToSql e).2.err =
      some (newError (e.typeString m.col.typ ++ " column not accept " ++ m.val.raw.typeName)) ∧
    (∀ (r : updateValue) (bldr : builder), r.col.acceptType e r.val = false →
      (r.serialize e bldr).query = bldr.query ∧ (r.serialize e bldr).args = bldr.args) ∧
    (b.ToSql e).2.args =
      ((b.set.filter (fun r => r.col.acceptType e r.val)).map (fun r => r.val.bound)).flatten ++
      (match b.where_ with
        | some cond => cond.args
        | none => []) ++
      (if b.limit = 0 then [] else [Raw.int b.limit]) ++
      (if b.offset = 0 then [] else [Raw.int b.offset]) := by
  have herr : (b.ToSql e).2.err = some (notAcceptError e m.col m.val) := by
    rw [update_err]
    have hne : b.set ≠ [] := by
      intro h
      rw [h] at hi
      simp at hi
    have hjoin : firstFailure (joinFrags ", " (b.set.map (updateValue.frags e))) =
        some (notAcceptError e m.col m.val) := by
      apply firstFailure_joinFrags_first ", " _ i (m.frags e)
      · rw [List.getElem?_map, hi]
        rfl
      · rw [updateValue_frags_failure, hrej]
        rfl
      · intro j hj y hy
        rw [List.getElem?_map] at hy
        cases hm0 : b.set[j]? with
        | none => simp [hm0] at hy
        | some m0 =>
          simp only [hm0, Option.map_some', Option.some.injEq] at hy
          subst hy
          rw [updateValue_frags_failure, hbefore j hj m0 hm0]
          rfl
    have hhead : firstFailure (b.headFrags e) = some (notAcceptError e m.col m.val) := by
      unfold UpdateStatement.headFrags
      rw [ht]
      simp only [hne, if_false]
      exact hjoin
    unfold UpdateStatement.frags
    rw [firstFailure_append, firstFailure_append, firstFailure_append, firstFailure_append,
      hhead]
  refine ⟨by rw [herr]; simp, herr, ?_, ?_⟩
  · intro r bldr hr
    unfold updateValue.serialize
    simp [hr]
  · rw [update_args_general]
    congr 3
    generalize b.set = ms
    induction ms with
    | nil => rfl
    | cons r ms ih =>
      cases hr : r.col.acceptType e r.val <;>
        simp [List.filter, updateValue.bound, hr, ih]

theorem update_first_rejected_witness :
    rejectedUpdate.table = some PERSON ∧
    (rejectedUpdate.ToSql exampleEnv).2.err =
      some (Error.mk "sqlbuilder: int column not accept string") ∧
    (rejectedUpdate.ToSql exampleEnv).2.args = [Raw.string "a"] :=
  ⟨rfl,
    (update_first_rejected exampleEnv rejectedUpdate PERSON rfl 1
      (newUpdateValue personId (Raw.string "bad")) rfl rfl
      (by
        intro j hj m0 hm0
        have hj0 : j = 0 := by omega
        subst hj0
        have h0 : some (newUpdateValue personName (Raw.string "a")) = some m0 := hm0
        rw [← Option.some.inj h0]
        decide)).2.1,
    (update_first_rejected exampleEnv rejectedUpdate PERSON rfl 1
      (newUpdateValue personId (Raw.string "bad")) rfl rfl
      (by
        intro j hj m0 hm0
        have hj0 : j = 0 := by omega
        subst hj0
        have h0 : some (newUpdateValue personName (Raw.string "a")) = some m0 := hm0
        rw [← Option.some.inj h0]
        decide)).2.2.2⟩

/-- C18 (the code at the failing input): `OrderBy(desc)` without columns on a builder that
has no ordering makes the ordering non-nil, and ToSql then writes ` ORDER BY ` followed by no
column, with a nil error; never calling OrderBy writes no such clause. -/
theorem update_orderBy_no_columns :
    ((Update (some PERSON)).Set personName (Raw.string "a")).orderBy = none ∧
    ((((Update (some PERSON)).Set personName (Raw.string "a")).OrderBy true []).ToSql
        exampleEnv).2 =
      Result.mk "UPDATE PERSON SET name=? ORDER BY " [Raw.string "a"] none ∧
    (((Update (some PERSON)).Set personName (Raw.string "a")).ToSql exampleEnv).2 =
      Result.mk "UPDATE PERSON SET name=?" [Raw.string "a"] none ∧
    ((((Update (some PERSON)).Set personName (Raw.string "a")).OrderBy true []).ToSql
        exampleEnv).2 ≠
      (((Update (some PERSON)).Set personName (Raw.string "a")).ToSql exampleEnv).2 := by
  decide

/-! ## Timestamps -/

set_option maxHeartbeats 1000000 in
theorem dayOfYear_le (doe : Nat) (h : doe < 146097) :
    doe - (365 * ((doe - doe / 1460 + doe / 36524 - doe / 146096) / 365) +
      ((doe - doe / 1460 + doe / 36524 - doe / 146096) / 365) / 4 -
      ((doe - doe / 1460 + doe / 36524 - doe / 146096) / 365) / 100) ≤ 365 := by
  have he : doe / 36524 ≤ 4 := by omega
  generalize hcd : doe / 36524 = c at he ⊢
  have hf : doe / 146096 ≤ 1 := by omega
  generalize hfd : doe / 146096 = f at hf ⊢
  generalize had : (doe - doe / 1460 + c - f) / 365 = a
  have hk : a / 100 ≤ 4 := by omega
  generalize hkd : a / 100 = k at hk ⊢
  interval_cases c <;> interval_cases f <;> interval_cases k <;> omega

/-- The month and the day that `civilFromDays` computes are a month and a day of a month. -/
theorem civilFromDays_bounds (days : Int) :
    1 ≤ (civilFromDays days).2.1 ∧ (civilFromDays days).2.1 ≤ 12 ∧
    1 ≤ (civilFromDays days).2.2 ∧ (civilFromDays days).2.2 ≤ 31 := by
  unfold civilFromDays
  simp only
  have hdoe : ((days + 719468) - (days + 719468) / 146097 * 146097).toNat < 146097 := by omega
  generalize ((days + 719468) - (days + 719468) / 146097 * 146097).toNat = doe at hdoe ⊢
  have hdoy := dayOfYear_le doe hdoe
  generalize doe - (365 * ((doe - doe / 1460 + doe / 36524 - doe / 146096) / 365) +
      ((doe - doe / 1460 + doe / 36524 - doe / 146096) / 365) / 4 -
      ((doe - doe / 1460 + doe / 36524 - doe / 146096) / 365) / 100) = doy at hdoy ⊢
  split <;> omega

theorem zeroPad_length (w n : Nat) (hw : 0 < w) (h : n < 10 ^ w) : (zeroPad w n).length = w := by
  have hlen := Nat.repr_length n w hw h
  unfold zeroPad
  rw [String.length_append, String.length_mk, List.length_replicate]
  omega

theorem time_Format_eq (t : Time) (hy : 0 ≤ t.year) :
    t.Format =
      zeroPad 4 t.year.toNat ++ "-" ++ zeroPad 2 t.month ++ "-" ++ zeroPad 2 t.day ++ " " ++
        zeroPad 2 t.hour ++ ":" ++ zeroPad 2 t.minute ++ ":" ++ zeroPad 2 t.second := by
  have hyear : formatYear t.year = zeroPad 4 t.year.toNat := by
    unfold formatYear
    rw [if_neg (not_lt.mpr hy)]
    congr 1
    omega
  unfold Time.Format
  simp only
  rw [← hyear]
  rfl

set_option maxHeartbeats 1000000 in
theorem yearOfEra_spec (doe : Nat) (h : doe < 146097) :
    (doe - doe / 1460 + doe / 36524 - doe / 146096) / 365 ≤ 399 ∧
    365 * ((doe - doe / 1460 + doe / 36524 - doe / 146096) / 365) +
      ((doe - doe / 1460 + doe / 36524 - doe / 146096) / 365) / 4 -
      ((doe - doe / 1460 + doe / 36524 - doe / 146096) / 365) / 100 ≤ doe ∧
    doe + ((doe - doe / 1460 + doe / 36524 - doe / 146096) / 365) / 100 ≤
      365 * ((doe - doe / 1460 + doe / 36524 - doe / 146096) / 365) +
      ((doe - doe / 1460 + doe / 36524 - doe / 146096) / 365) / 4 + 365 ∧
    (doe + ((doe - doe / 1460 + doe / 36524 - doe / 146096) / 365) / 100 =
      365 * ((doe - doe / 1460 + doe / 36524 - doe / 146096) / 365) +
      ((doe - doe / 1460 + doe / 36524 - doe / 146096) / 365) / 4 + 365 →
      ((doe - doe / 1460 + doe / 36524 - doe / 146096) / 365) % 4 = 3 ∧
      (((doe - doe / 1460 + doe / 36524 - doe / 146096) / 365) % 100 ≠ 99 ∨
        (doe - doe / 1460 + doe / 36524 - doe / 146096) / 365 = 399)) := by
  have he : doe / 36524 ≤ 4 := by omega
  generalize hcd : doe / 36524 = c at he ⊢
  have hf : doe / 146096 ≤ 1 := by omega
  generalize hfd : doe / 146096 = f at hf ⊢
  generalize had : (doe - doe / 1460 + c - f) / 365 = a
  have hk : a / 100 ≤ 4 := by omega
  generalize hkd : a / 100 = k at hk ⊢
  interval_cases c <;> interval_cases f <;> interval_cases k <;> omega

/-- valid -/
theorem isLeapYear_shift (y e : Int) : isLeapYear (y + e * 400) = isLeapYear y := by
  unfold isLeapYear
  have h1 : (y + e * 400) % 4 = y % 4 := by omega
  have h2 : (y + e * 400) % 100 = y % 100 := by omega
  have h3 : (y + e * 400) % 400 = y % 400 := by omega
  rw [h1, h2, h3]

theorem daysInMonth_shift (y e : Int) (m : Nat) :
    daysInMonth (y + e * 400) m = daysInMonth y m := by
  unfold daysInMonth
  rw [isLeapYear_shift]

theorem daysBeforeMonth_shift (y e : Int) (m : Nat) :
    daysBeforeMonth (y + e * 400) m = daysBeforeMonth y m := by
  unfold daysBeforeMonth
  simp only [daysInMonth_shift]

theorem dayNumber_shift (y e : Int) (m d : Nat) :
    dayNumber (y + e * 400) m d = dayNumber y m d + e * 146097 := by
  unfold dayNumber daysBeforeYear leapYearsBefore
  rw [daysBeforeMonth_shift]
  omega

theorem validDate_shift (y e : Int) (m d : Nat) :
    validDate (y + e * 400) m d ↔ validDate y m d := by
  unfold validDate
  rw [daysInMonth_shift]

theorem daysBeforeYear_march (yoe : Nat) (h : yoe ≤ 399) :
    daysBeforeYear (yoe : Int) + 59 + (if isLeapYear (yoe : Int) = true then 1 else 0) =
      ((365 * yoe + yoe / 4 - yoe / 100 : Nat) : Int) - 719468 := by
  unfold daysBeforeYear leapYearsBefore isLeapYear
  simp only [Int.reduceSub, Int.reduceDiv, Int.reduceAdd, decide_eq_true_eq, Bool.decide_and,
    Bool.decide_or, Bool.and_eq_true, Bool.or_eq_true]
  have a4 : (yoe % 4 = 0 ∧ ((yoe : Int) - 1) / 4 = ((yoe / 4 : Nat) : Int) - 1) ∨
      (yoe % 4 ≠ 0 ∧ ((yoe : Int) - 1) / 4 = ((yoe / 4 : Nat) : Int)) := by omega
  have a100 : (yoe % 100 = 0 ∧ ((yoe : Int) - 1) / 100 = ((yoe / 100 : Nat) : Int) - 1) ∨
      (yoe % 100 ≠ 0 ∧ ((yoe : Int) - 1) / 100 = ((yoe / 100 : Nat) : Int)) := by omega
  have a400 : (yoe = 0 ∧ ((yoe : Int) - 1) / 400 = -1) ∨
      (yoe ≠ 0 ∧ ((yoe : Int) - 1) / 400 = 0) := by omega
  have hk : yoe / 100 ≤ 3 := by omega
  have hq : yoe / 100 ≤ yoe / 4 := by omega
  generalize ((yoe : Int) - 1) / 4 = p4 at a4 ⊢
  generalize ((yoe : Int) - 1) / 100 = p100 at a100 ⊢
  generalize ((yoe : Int) - 1) / 400 = p400 at a400 ⊢
  split_ifs <;> omega

theorem daysBeforeYear_january (yoe : Nat) (h : yoe ≤ 399) :
    daysBeforeYear ((yoe : Int) + 1) =
      ((365 * yoe + yoe / 4 - yoe / 100 : Nat) : Int) + 306 - 719468 := by
  unfold daysBeforeYear leapYearsBefore
  simp only [add_sub_cancel_right, Int.reduceSub, Int.reduceDiv, Int.reduceAdd]
  have hq : yoe / 100 ≤ yoe / 4 := by omega
  omega

theorem leap_after_day365 (yoe : Nat)
    (h : yoe % 4 = 3 ∧ (yoe % 100 ≠ 99 ∨ yoe = 399)) : isLeapYear ((yoe : Int) + 1) = true := by
  unfold isLeapYear
  simp only [decide_eq_true_eq, Bool.decide_and, Bool.decide_or, Bool.and_eq_true,
    Bool.or_eq_true, ne_eq, Bool.not_eq_true', decide_eq_false_iff_not, decide_not,
    Bool.not_eq_eq_eq_not, Bool.not_true]
  omega

set_option maxHeartbeats 4000000 in
/-- The date that `civilFromDays` computes is a date of the Gregorian calendar, and it is the
date of the day it was asked for. -/
theorem civil_correct (days : Int) :
    validDate (civilFromDays days).1 (civilFromDays days).2.1 (civilFromDays days).2.2 ∧
    dayNumber (civilFromDays days).1 (civilFromDays days).2.1 (civilFromDays days).2.2 = days := by
  unfold civilFromDays
  simp only
  have hz : (days + 719468) = (days + 719468) / 146097 * 146097 +
      (((days + 719468) - (days + 719468) / 146097 * 146097).toNat : Int) := by omega
  have hdoe : ((days + 719468) - (days + 719468) / 146097 * 146097).toNat < 146097 := by omega
  generalize ((days + 719468) - (days + 719468) / 146097 * 146097).toNat = doe at hz hdoe ⊢
  generalize (days + 719468) / 146097 = era at hz ⊢
  obtain ⟨hy1, hy2, hy3, hy4⟩ := yearOfEra_spec doe hdoe
  generalize (doe - doe / 1460 + doe / 36524 - doe / 146096) / 365 = yoe at hy1 hy2 hy3 hy4 ⊢
  have hA := daysBeforeYear_march yoe hy1
  have hB := daysBeforeYear_january yoe hy1
  have hdoy : doe = 365 * yoe + yoe / 4 - yoe / 100 + (doe - (365 * yoe + yoe / 4 - yoe / 100)) := by
    omega
  have hdoy2 : doe - (365 * yoe + yoe / 4 - yoe / 100) ≤ 365 := by omega
  have hy5 : doe - (365 * yoe + yoe / 4 - yoe / 100) = 365 →
      isLeapYear ((yoe : Int) + 1) = true := by
    intro h
    apply leap_after_day365
    apply hy4
    omega
  generalize doe - (365 * yoe + yoe / 4 - yoe / 100) = doy at hdoy hdoy2 hy5 ⊢
  generalize 365 * yoe + yoe / 4 - yoe / 100 = base at hA hB hdoy
  have hmp : (5 * doy + 2) / 153 ≤ 11 := by omega
  generalize hmpd : (5 * doy + 2) / 153 = mp at hmp ⊢
  rw [add_right_comm (yoe : Int) (era * 400), validDate_shift, dayNumber_shift]
  have hdays : days = era * 146097 + (doe : Int) - 719468 := by omega
  rw [hdays, hdoy]
  clear hz hdays hy2 hy3 hy4 hdoy hdoe hy1
  generalize hAd : daysBeforeYear (yoe : Int) = A at hA
  generalize hBd : daysBeforeYear ((yoe : Int) + 1) = B at hB
  unfold validDate dayNumber daysBeforeMonth
  cases hl0 : isLeapYear (yoe : Int) <;> cases hl1 : isLeapYear ((yoe : Int) + 1) <;>
    simp only [hl0, hl1, Bool.false_eq_true, if_false, if_true, imp_false, add_zero,
      implies_true] at hA hy5 <;>
    interval_cases mp <;>
    simp only [daysInMonth, hl0, hl1, hAd, hBd, List.range_succ, List.range_zero, List.map_append,
      List.map_cons, List.map_nil, List.sum_append, List.sum_cons, List.sum_nil,
      List.nil_append, Nat.reduceLT, Nat.reduceAdd, Nat.reduceSub, Nat.reduceLeDiff, if_true,
      if_false, Nat.reduceMul, Nat.reduceDiv, add_zero, Bool.false_eq_true, true_and,
      Nat.cast_zero, Nat.cast_ofNat, Nat.cast_add] <;>
    omega

theorem daysBeforeMonth_succ (y : Int) (m : Nat) (h : 1 ≤ m) :
    daysBeforeMonth y (m + 1) = daysBeforeMonth y m + daysInMonth y m := by
  unfold daysBeforeMonth
  obtain ⟨n, rfl⟩ : ∃ n, m = n + 1 := ⟨m - 1, by omega⟩
  simp only [Nat.add_sub_cancel, List.range_succ, List.map_append, List.sum_append,
    List.map_cons, List.map_nil, List.sum_cons, List.sum_nil, add_zero]

theorem daysBeforeMonth_mono (y : Int) (m m' : Nat) (h1 : 1 ≤ m) (h : m < m') :
    daysBeforeMonth y m + daysInMonth y m ≤ daysBeforeMonth y m' := by
  induction m', h using Nat.le_induction with
  | base => rw [daysBeforeMonth_succ y m h1]
  | succ n hn ih =>
    rw [daysBeforeMonth_succ y n (by omega)]
    omega

theorem daysBeforeMonth_thirteen (y : Int) :
    daysBeforeMonth y 13 = 365 + (if isLeapYear y = true then 1 else 0) := by
  unfold daysBeforeMonth
  simp only [daysInMonth, List.range_succ, List.range_zero, List.map_append,
    List.map_cons, List.map_nil, List.sum_append, List.sum_cons, List.sum_nil,
    List.nil_append, Nat.reduceAdd, Nat.reduceSub, add_zero]
  split_ifs <;> rfl

theorem daysBeforeYear_succ (y : Int) :
    daysBeforeYear (y + 1) = daysBeforeYear y + 365 + (if isLeapYear y = true then 1 else 0) := by
  unfold daysBeforeYear leapYearsBefore isLeapYear
  simp only [add_sub_cancel_right, decide_eq_true_eq, Bool.decide_and,
    Bool.decide_or, Bool.and_eq_true, Bool.or_eq_true]
  split_ifs <;> omega

theorem daysBeforeYear_mono (y y' : Int) (h : y < y') :
    daysBeforeYear (y + 1) ≤ daysBeforeYear y' := by
  unfold daysBeforeYear leapYearsBefore
  simp only [add_sub_cancel_right]
  omega

theorem dayNumber_range (y : Int) (m d : Nat) (h : validDate y m d) :
    daysBeforeYear y ≤ dayNumber y m d ∧ dayNumber y m d < daysBeforeYear (y + 1) := by
  obtain ⟨h1, h2, h3, h4⟩ := h
  have hm := daysBeforeMonth_mono y m 13 h1 (by omega)
  rw [daysBeforeMonth_thirteen] at hm
  rw [daysBeforeYear_succ]
  unfold dayNumber
  split_ifs at hm ⊢ <;> omega

/-- Two dates of the calendar that are the same day are the same date. -/
theorem dayNumber_inj (y y' : Int) (m m' d d' : Nat) (h : validDate y m d)
    (h' : validDate y' m' d') (he : dayNumber y m d = dayNumber y' m' d') :
    y = y' ∧ m = m' ∧ d = d' := by
  have r := dayNumber_range y m d h
  have r' := dayNumber_range y' m' d' h'
  have hy : y = y' := by
    rcases lt_trichotomy y y' with hlt | heq | hgt
    · have := daysBeforeYear_mono y y' hlt
      omega
    · exact heq
    · have := daysBeforeYear_mono y' y hgt
      omega
  subst hy
  obtain ⟨h1, h2, h3, h4⟩ := h
  obtain ⟨h1', h2', h3', h4'⟩ := h'
  unfold dayNumber at he
  have hm : m = m' := by
    rcases lt_trichotomy m m' with hlt | heq | hgt
    · have := daysBeforeMonth_mono y m m' h1 hlt
      omega
    · exact heq
    · have := daysBeforeMonth_mono y m' m h1' hgt
      omega
  subst hm
  exact ⟨rfl, rfl, by omega⟩

/-- Every date of the Gregorian calendar is what `civilFromDays` computes for its day. -/
theorem civil_roundtrip (y : Int) (m d : Nat) (h : validDate y m d) :
    civilFromDays (dayNumber y m d) = (y, m, d) := by
  obtain ⟨hv, hn⟩ := civil_correct (dayNumber y m d)
  obtain ⟨e1, e2, e3⟩ := dayNumber_inj _ _ _ _ _ _ hv h hn
  exact Prod.ext e1 (Prod.ext e2 e3)

/-- C12: the text form of a timestamp whose year lies between 0 and 9999 is
`YYYY-MM-DD HH:MM:SS`, 19 characters: the wall-clock fields of the timestamp in its own zone,
zero-padded to 4, 2, 2, 2, 2 and 2 characters. The fields are those of the Gregorian
calendar: year, month and day form a date of the calendar, the wall clock is the day of that
date plus the hour, minute and second, and whenever the wall clock is second `s` of minute
`mi` of hour `h` of a date `y`-`m`-`d` of the calendar, the text is made of the padded `y`,
`m`, `d`, `h`, `mi` and `s`. The sub-second part plays no role, and no zone indicator is
written: only the wall clock counts. -/
theorem time_text_form (t : Time) (p : Bool) (hy : 0 ≤ t.year ∧ t.year ≤ 9999) :
    (literalImpl.mk (Raw.time t) p).string =
      zeroPad 4 t.year.toNat ++ "-" ++ zeroPad 2 t.month ++ "-" ++ zeroPad 2 t.day ++ " " ++
        zeroPad 2 t.hour ++ ":" ++ zeroPad 2 t.minute ++ ":" ++ zeroPad 2 t.second ∧
    (literalImpl.mk (Raw.time t) p).string.length = 19 ∧
    ((zeroPad 4 t.year.toNat).length = 4 ∧ (zeroPad 2 t.month).length = 2 ∧
      (zeroPad 2 t.day).length = 2 ∧ (zeroPad 2 t.hour).length = 2 ∧
      (zeroPad 2 t.minute).length = 2 ∧ (zeroPad 2 t.second).length = 2) ∧
    (1 ≤ t.month ∧ t.month ≤ 12 ∧ 1 ≤ t.day ∧ t.day ≤ 31 ∧
      t.hour < 24 ∧ t.minute < 60 ∧ t.second < 60) ∧
    (∀ n : Nat, (literalImpl.mk (Raw.time (Time.mk t.unix n t.offset)) p).string =
      (literalImpl.mk (Raw.time t) p).string) ∧
    (∀ u : Time, u.wall = t.wall →
      (literalImpl.mk (Raw.time u) p).string = (literalImpl.mk (Raw.time t) p).string) ∧
    (validDate t.year t.month t.day ∧
      t.wall = dayNumber t.year t.month t.day * 86400 +
        ((t.hour * 3600 + t.minute * 60 + t.second : Nat) : Int)) ∧
    (∀ (y : Int) (m d h mi s : Nat), validDate y m d → h < 24 → mi < 60 → s < 60 →
      t.wall = dayNumber y m d * 86400 + ((h * 3600 + mi * 60 + s : Nat) : Int) →
      (t.year = y ∧ t.month = m ∧ t.day = d ∧ t.hour = h ∧ t.minute = mi ∧ t.second = s) ∧
      (literalImpl.mk (Raw.time t) p).string =
        zeroPad 4 y.toNat ++ "-" ++ zeroPad 2 m ++ "-" ++ zeroPad 2 d ++ " " ++
          zeroPad 2 h ++ ":" ++ zeroPad 2 mi ++ ":" ++ zeroPad 2 s) := by
  have hb := civilFromDays_bounds (t.wall / 86400)
  have hc := civil_correct (t.wall / 86400)
  have hmonth : t.month < 10 ^ 2 := by
    have := hb.2.1
    unfold Time.month
    omega
  have hday : t.day < 10 ^ 2 := by
    have := hb.2.2.2
    unfold Time.day
    omega
  have hhour : t.hour < 24 := by
    unfold Time.hour
    omega
  have hminute : t.minute < 60 := by
    unfold Time.minute
    omega
  have hsecond : t.second < 60 := by
    unfold Time.second
    omega
  have hyear : t.year.toNat < 10 ^ 4 := by
    have := hy.2
    omega
  have l4 := zeroPad_length 4 t.year.toNat (by norm_num) hyear
  have lm := zeroPad_length 2 t.month (by norm_num) hmonth
  have ld := zeroPad_length 2 t.day (by norm_num) hday
  have lh := zeroPad_length 2 t.hour (by norm_num) (by omega)
  have li := zeroPad_length 2 t.minute (by norm_num) (by omega)
  have ls := zeroPad_length 2 t.second (by norm_num) (by omega)
  have hfmt : (literalImpl.mk (Raw.time t) p).string =
      zeroPad 4 t.year.toNat ++ "-" ++ zeroPad 2 t.month ++ "-" ++ zeroPad 2 t.day ++ " " ++
        zeroPad 2 t.hour ++ ":" ++ zeroPad 2 t.minute ++ ":" ++ zeroPad 2 t.second :=
    time_Format_eq t hy.1
  have hnum : dayNumber t.year t.month t.day = t.wall / 86400 := hc.2
  refine ⟨hfmt, ?_, ⟨l4, lm, ld, lh, li, ls⟩,
    ⟨hb.1, hb.2.1, hb.2.2.1, hb.2.2.2, hhour, hminute, hsecond⟩, ?_, ?_, ⟨hc.1, ?_⟩, ?_⟩
  · rw [hfmt]
    simp only [String.length_append, l4, lm, ld, lh, li, ls]
    rfl
  · intro n
    rfl
  · intro u hu
    show u.Format = t.Format
    unfold Time.Format
    have hw : u.unix + u.offset = t.unix + t.offset := hu
    rw [hw]
  · rw [hnum]
    unfold Time.hour Time.minute Time.second
    omega
  · intro y m d h mi s hv hh hmi hs hw
    have hq : t.wall / 86400 = dayNumber y m d := by omega
    have hr : (t.wall % 86400).toNat = h * 3600 + mi * 60 + s := by omega
    have hciv : civilFromDays (t.wall / 86400) = (y, m, d) := by
      rw [hq]
      exact civil_roundtrip y m d hv
    have e1 : t.year = y := by
      unfold Time.year
      rw [hciv]
    have e2 : t.month = m := by
      unfold Time.month
      rw [hciv]
    have e3 : t.day = d := by
      unfold Time.day
      rw [hciv]
    have e4 : t.hour = h := by
      unfold Time.hour
      omega
    have e5 : t.minute = mi := by
      unfold Time.minute
      omega
    have e6 : t.second = s := by
      unfold Time.second
      omega
    refine ⟨⟨e1, e2, e3, e4, e5, e6⟩, ?_⟩
    rw [hfmt, e1, e2, e3, e4, e5, e6]

theorem time_text_form_witness :
    (0 ≤ epochInTokyo.year ∧ epochInTokyo.year ≤ 9999) ∧
    (toLiteral (Raw.time epochInTokyo)).string = "1970-01-01 09:00:00" ∧
    (toLiteral (Raw.time epochInTokyo)).string.length = 19 ∧
    (0 ≤ leapDayEvening.year ∧ leapDayEvening.year ≤ 9999) ∧
    validDate 2024 2 29 ∧
    leapDayEvening.wall = dayNumber 2024 2 29 * 86400 + ((23 * 3600 + 59 * 60 + 59 : Nat) : Int) ∧
    (toLiteral (Raw.time leapDayEvening)).string = "2024-02-29 23:59:59" :=
  ⟨by decide, (time_text_form epochInTokyo true (by decide)).1.trans (by decide),
    (time_text_form epochInTokyo true (by decide)).2.1, by decide, by decide, by decide,
    ((time_text_form leapDayEvening true (by decide)).2.2.2.2.2.2.2 2024 2 29 23 59 59
      (by decide) (by decide) (by decide) (by decide) (by decide)).2.trans (by decide)⟩

/-! ## The text form of the other literals -/

theorem formatInt_eq (v : Int) : FormatInt v = signedDecimal v := by
  unfold FormatInt signedDecimal
  rw [repr_eq_decimal]

/-- C11 (as stated, refuted): a value of a kind that the switch does not list, or of an
integer kind but not of a built-in integer type, is rendered by its own `String()` method when
it has one: a `*url.URL` (a pointer) does not give the empty text, and a `time.Duration` (a
64-bit signed integer) gives `1s`, which is not a digit sequence. -/
theorem literal_string_counterexample :
    (Raw.other "*url.URL" Kind.Ptr false (some "http://example.com")).kind = Kind.Ptr ∧
    (toLiteral (Raw.other "*url.URL" Kind.Ptr false (some "http://example.com"))).string ≠ "" ∧
    (Raw.other "time.Duration" Kind.Int64 false (some "1s")).kind = Kind.Int64 ∧
    (toLiteral (Raw.other "time.Duration" Kind.Int64 false (some "1s"))).string = "1s" := by
  decide

/-- C11 (amended): the text form by dynamic type.  A value of a built-in signed integer type
(`int`, `int8`, `int16`, `int32`, `int64`) is rendered as its base-10 digits with a leading
`-` when negative, one of a built-in unsigned integer type (`uint` to `uint64`) as its base-10
digits, a `bool` as `true` or `false`, a `string` or a `[]byte` as the raw text itself, the
absent value as `NULL`, a value of any other type that has a `String()` method as the text
that method returns, and a value of any other type as the empty text; whether the literal is
bound or inline plays no role. -/
theorem literal_string_by_type (p : Bool) :
    (∀ v : Int, (literalImpl.mk (Raw.int v) p).string = signedDecimal v ∧
      (literalImpl.mk (Raw.int8 v) p).string = signedDecimal v ∧
      (literalImpl.mk (Raw.int16 v) p).string = signedDecimal v ∧
      (literalImpl.mk (Raw.int32 v) p).string = signedDecimal v ∧
      (literalImpl.mk (Raw.int64 v) p).string = signedDecimal v) ∧
    (∀ n : Nat, (literalImpl.mk (Raw.uint n) p).string = decimal n ∧
      (literalImpl.mk (Raw.uint8 n) p).string = decimal n ∧
      (literalImpl.mk (Raw.uint16 n) p).string = decimal n ∧
      (literalImpl.mk (Raw.uint32 n) p).string = decimal n ∧
      (literalImpl.mk (Raw.uint64 n) p).string = decimal n) ∧
    (literalImpl.mk (Raw.bool true) p).string = "true" ∧
    (literalImpl.mk (Raw.bool false) p).string = "false" ∧
    (∀ s : String, (literalImpl.mk (Raw.string s) p).string = s ∧
      (literalImpl.mk (Raw.bytes (some s)) p).string = s) ∧
    (literalImpl.mk (Raw.bytes none) p).string = "" ∧
    (literalImpl.mk Raw.nil p).string = "NULL" ∧
    (∀ (name : String) (k : Kind) (isNil : Bool) (s : String),
      (literalImpl.mk (Raw.other name k isNil (some s)) p).string = s) ∧
    (∀ (name : String) (k : Kind) (isNil : Bool),
      (literalImpl.mk (Raw.other name k isNil none) p).string = "") := by
  refine ⟨fun v => ?_, fun n => ?_, rfl, rfl, fun s => ⟨rfl, rfl⟩, rfl, rfl,
    fun _ _ _ _ => rfl, fun _ _ _ => rfl⟩
  · have h := formatInt_eq v
    exact ⟨h, h, h, h, h⟩
  · have h : FormatUint n = decimal n := repr_eq_decimal n
    exact ⟨h, h, h, h, h⟩

theorem literal_string_by_type_witness :
    (toLiteral (Raw.int 10)).string = "10" ∧
    (toLiteral (Raw.int64 (-10))).string = "-10" ∧
    (toLiteral (Raw.bool true)).string = "true" ∧
    (toLiteral (Raw.other "complex128" Kind.Complex128 false none)).string = "" :=
  ⟨(((literal_string_by_type true).1 10).1.trans (formatInt_eq 10).symm).trans (by decide),
    (((literal_string_by_type true).1 (-10)).2.2.2.2.trans (formatInt_eq (-10)).symm).trans
      (by decide),
    (literal_string_by_type true).2.2.1,
    (literal_string_by_type true).2.2.2.2.2.2.2.2 "complex128" Kind.Complex128 false⟩

end Sqlbuilder
